import Mathlib

/-!
Verification development for the guac-ai-mole agent core.

The Go sources are shallowly embedded:

* `internal/analyzer/analyzer.go` — the bounded agent loop, dedup via
  `jsonEqual`, GUAC retry, truncation, and response assembly.
* `internal/guac/tools/invoke.go` and `known.go` — operation lookup,
  JSON-schema synthesis (`typeToJSONSchema`), and the Known-Query tool
  (`knownQueryPackage`, `removeDuplicateValuesFromPath`).

Modelling conventions:

* Go strings are treated as byte sequences; a Lean `Char` stands for one
  byte and `String.length` models Go's `len` (all string literals involved
  are ASCII).
* External collaborators (the LLM provider, the GUAC GraphQL transport,
  `json.Marshal` of response structs, `helpers.PurlToPkg`) are oracle
  parameters; the code under verification is everything the repo defines.
* Fallible Go code returns `Except`; Go runtime panics (out-of-range
  indexing) are a distinguished error constructor so that a panic can be
  told apart from a returned error.
* `json.Unmarshal` into `interface{}` is modelled by an executable JSON
  reader producing `GoVal`; JSON numbers are modelled as integers (the Go
  decoder produces `float64`, and for integral values below 1e21 `%v`
  prints the plain decimal digits, which is what `GoVal.num` captures;
  non-integer numerics and string escapes are outside the model and make
  the reader fail, which mirrors an `Unmarshal` error in the claims
  settled here).
-/

namespace GuacAiMole

/-! ## Go values decoded from JSON (`json.Unmarshal` into `interface{}`) -/

/-- A value produced by decoding JSON into a Go `interface{}`:
`nil`, `bool`, `float64` (integral, see module comment), `string`,
`[]interface{}`, or `map[string]interface{}`.  Object entries are kept
key-sorted with unique keys, matching Go map semantics plus the sorted
order in which `fmt` prints maps. -/
inductive GoVal where
  | null
  | boolean (b : Bool)
  | num (n : Int)
  | str (s : String)
  | arr (elems : List GoVal)
  | obj (entries : List (String × GoVal))

mutual

/-- `fmt.Sprintf("%v", v)` for a decoded `GoVal`: `nil` prints `<nil>`,
strings print verbatim, slices print space-separated in brackets, and maps
print `map[k1:v1 k2:v2]` with keys in sorted order. -/
def goFmt : GoVal → String
  | .null => "<nil>"
  | .boolean true => "true"
  | .boolean false => "false"
  | .num n => toString n
  | .str s => s
  | .arr xs => "[" ++ goFmtElems xs ++ "]"
  | .obj kvs => "map[" ++ goFmtEntries kvs ++ "]"

/-- Space-separated rendering of slice elements. -/
def goFmtElems : List GoVal → String
  | [] => ""
  | [x] => goFmt x
  | x :: y :: rest => goFmt x ++ " " ++ goFmtElems (y :: rest)

/-- Space-separated rendering of map entries as `key:value`. -/
def goFmtEntries : List (String × GoVal) → String
  | [] => ""
  | [kv] => kv.1 ++ ":" ++ goFmt kv.2
  | kv :: kv2 :: rest => kv.1 ++ ":" ++ goFmt kv.2 ++ " " ++ goFmtEntries (kv2 :: rest)

end

/-! ## An executable JSON reader modelling `json.Unmarshal` -/

/-- JSON insignificant whitespace. -/
def isWs (c : Char) : Bool :=
  c == ' ' || c == '\t' || c == '\n' || c == '\r'

/-- Drop leading whitespace. -/
def skipWs : List Char → List Char
  | [] => []
  | c :: rest => if isWs c then skipWs rest else c :: rest

/-- Match an expected literal suffix (e.g. the `ull` of `null`). -/
def stripLit : List Char → List Char → Option (List Char)
  | [], cs => some cs
  | _ :: _, [] => none
  | p :: ps, c :: cs => if c == p then stripLit ps cs else none

/-- Read the body of a JSON string after the opening quote.  Escape
sequences are outside the model (the reader fails on a backslash). -/
def readStrBody (acc : List Char) : List Char → Option (String × List Char)
  | [] => none
  | c :: rest =>
    if c == '"' then some (String.mk acc.reverse, rest)
    else if c == '\\' then none
    else readStrBody (c :: acc) rest

/-- Split a leading run of decimal digits. -/
def takeDigits : List Char → List Char × List Char
  | [] => ([], [])
  | c :: rest =>
    if c.isDigit then
      let p := takeDigits rest
      (c :: p.1, p.2)
    else ([], c :: rest)

/-- Numeric value of a digit run. -/
def digitsVal (ds : List Char) : Nat :=
  ds.foldl (fun acc c => acc * 10 + (c.toNat - 48)) 0

def lbrace : Char := Char.ofNat 123

def rbrace : Char := Char.ofNat 125

/-- Byte-order comparison of character lists (Go compares strings by
bytes; for the ASCII data involved this is the same order). -/
def charListLt : List Char → List Char → Bool
  | [], [] => false
  | [], _ :: _ => true
  | _ :: _, [] => false
  | a :: as, b :: bs =>
    if a.toNat < b.toNat then true
    else if b.toNat < a.toNat then false
    else charListLt as bs

/-- String byte-order comparison. -/
def strLt (a b : String) : Bool := charListLt a.toList b.toList

/-- Whether `pre` is a prefix of `s` (`strings.HasPrefix`). -/
def charListStartsWith : List Char → List Char → Bool
  | [], _ => true
  | _ :: _, [] => false
  | p :: ps, c :: cs => p == c && charListStartsWith ps cs

/-- `strings.HasPrefix(s, pre)`. -/
def goStartsWith (s pre : String) : Bool := charListStartsWith pre.toList s.toList

/-- ASCII lowering of one character (`strings.ToLower` restricted to the
ASCII identifiers that occur as field names). -/
def charToLower (c : Char) : Char :=
  if 65 ≤ c.toNat && c.toNat ≤ 90 then Char.ofNat (c.toNat + 32) else c

/-- `strings.ToLower`. -/
def goToLower (s : String) : String := String.mk (s.toList.map charToLower)

/-- Sorted insertion of an object entry; an entry that appears LATER in
the JSON text wins on a duplicate key (Go map assignment order), which the
caller realises by keeping an existing (later) entry. -/
def objInsertSorted (k : String) (v : GoVal) : List (String × GoVal) → List (String × GoVal)
  | [] => [(k, v)]
  | (k2, v2) :: rest =>
    if strLt k k2 then (k, v) :: (k2, v2) :: rest
    else (k2, v2) :: objInsertSorted k v rest

/-- Insert an entry parsed EARLIER in the text into the already-parsed
later entries: if the key already occurs, the later entry wins. -/
def objInsertEarlier (k : String) (v : GoVal) (kvs : List (String × GoVal)) : List (String × GoVal) :=
  if kvs.any (fun kv => kv.1 == k) then kvs else objInsertSorted k v kvs

mutual

/-- Fuel-indexed JSON value reader; produces the decoded `GoVal` and the
unconsumed input. -/
def readVal : Nat → List Char → Option (GoVal × List Char)
  | 0, _ => none
  | fuel + 1, cs =>
    match skipWs cs with
    | [] => none
    | c :: rest =>
      if c == 'n' then (stripLit ['u', 'l', 'l'] rest).map (fun r => (GoVal.null, r))
      else if c == 't' then (stripLit ['r', 'u', 'e'] rest).map (fun r => (GoVal.boolean true, r))
      else if c == 'f' then (stripLit ['a', 'l', 's', 'e'] rest).map (fun r => (GoVal.boolean false, r))
      else if c == '"' then (readStrBody [] rest).map (fun p => (GoVal.str p.1, p.2))
      else if c == '[' then
        match skipWs rest with
        | ']' :: r2 => some (GoVal.arr [], r2)
        | r2 => (readArrItems fuel r2).map (fun p => (GoVal.arr p.1, p.2))
      else if c == lbrace then
        match skipWs rest with
        | d :: r2 =>
          if d == rbrace then some (GoVal.obj [], r2)
          else (readObjItems fuel (d :: r2)).map (fun p => (GoVal.obj p.1, p.2))
        | [] => none
      else if c == '-' || c.isDigit then
        let start := if c == '-' then rest else c :: rest
        match takeDigits start with
        | ([], _) => none
        | (ds, r) =>
          match r with
          | '.' :: _ => none
          | 'e' :: _ => none
          | 'E' :: _ => none
          | _ =>
            let n : Int := Int.ofNat (digitsVal ds)
            some (GoVal.num (if c == '-' then -n else n), r)
      else none

/-- Comma-separated array items up to the closing bracket. -/
def readArrItems : Nat → List Char → Option (List GoVal × List Char)
  | 0, _ => none
  | fuel + 1, cs =>
    match readVal fuel cs with
    | none => none
    | some (v, r) =>
      match skipWs r with
      | ',' :: r2 => (readArrItems fuel r2).map (fun p => (v :: p.1, p.2))
      | ']' :: r2 => some ([v], r2)
      | _ => none

/-- Comma-separated object members up to the closing brace. -/
def readObjItems : Nat → List Char → Option (List (String × GoVal) × List Char)
  | 0, _ => none
  | fuel + 1, cs =>
    match skipWs cs with
    | '"' :: r =>
      match readStrBody [] r with
      | none => none
      | some (k, r2) =>
        match skipWs r2 with
        | ':' :: r3 =>
          match readVal fuel r3 with
          | none => none
          | some (v, r4) =>
            match skipWs r4 with
            | ',' :: r5 => (readObjItems fuel r5).map (fun p => (objInsertEarlier k v p.1, p.2))
            | d :: r5 => if d == rbrace then some ([(k, v)], r5) else none
            | [] => none
        | _ => none
    | _ => none

end

/-- `json.Unmarshal(s, &v)` for `v : interface{}`: decode one JSON value
and require only whitespace to follow; `none` is a decode error. -/
def unmarshal (s : String) : Option GoVal :=
  match readVal (s.length + 1) s.toList with
  | some (v, r) => if (skipWs r).isEmpty then some v else none
  | none => none

/-- `fmt.Sprintf("%v", x)` where `x` is the `interface{}` left by
`Unmarshal`: a failed decode leaves the interface `nil`, printed `<nil>`. -/
def sprintfVal : Option GoVal → String
  | none => "<nil>"
  | some v => goFmt v

/-- `jsonEqual` from `analyzer.go`: decode both raw messages (ignoring
errors) and compare the `%v` renderings. -/
def jsonEqual (a b : String) : Bool :=
  sprintfVal (unmarshal a) == sprintfVal (unmarshal b)

/-! ## Schema synthesis (`typeToJSONSchema`, `jsonFieldName` in `known.go`)

Go's `reflect.Type` is embedded as `GoType`: one constructor per `Kind`
that the switch in `typeToJSONSchema` distinguishes, with `other`
standing for every remaining kind (uint, smaller ints, func, chan, ...)
that falls to the `default` branch.  A struct field carries its declared
name, its `json` tag (`""` when the tag is absent, as `Tag.Get` returns),
and whether it is exported (`PkgPath == ""`). -/

mutual

inductive GoType where
  | ptr (elem : GoType)
  | struct (fields : GoFieldList)
  | str
  | int
  | float
  | bool
  | slice (elem : GoType)
  | array (elem : GoType)
  | mapStr (value : GoType)
  | iface
  | other

inductive GoFieldList where
  | nil
  | cons (name tag : String) (exported : Bool) (ty : GoType) (rest : GoFieldList)

end

/-- The JSON-schema objects built by `typeToJSONSchema`, one constructor
per shape of `map[string]interface{}` the function returns. -/
inductive Schema where
  | obj (props : List (String × Schema)) (required : List String)
  | sstr
  | sint
  | snum
  | sbool
  | sarr (items : Schema)
  | smap (additional : Schema)
  | sobj

/-- `jsonFieldName` from `known.go`: `json:"-"` skips the field, an
absent tag lowercases the declared name, otherwise the part before the
first comma is used. -/
def jsonFieldName (fname tag : String) : String :=
  if tag == "-" then ""
  else if tag == "" then goToLower fname
  else (tag.splitOn ",").headD ""

/-- The required-field heuristic in `typeToJSONSchema`: a field is
required when its kind is none of Ptr, Slice, Map, Interface. -/
def requiredKind : GoType → Bool
  | .ptr _ => false
  | .slice _ => false
  | .mapStr _ => false
  | .iface => false
  | _ => true

/-- Sorted insertion into the properties map; an entry already present
(from a later field with the same JSON name) is overwritten, as Go map
assignment in field order leaves the LAST write — here realised by the
earlier recursion structure placing later fields first. -/
def propsInsert (k : String) (v : Schema) : List (String × Schema) → List (String × Schema)
  | [] => [(k, v)]
  | (k2, v2) :: rest =>
    if k == k2 then (k, v) :: rest
    else if strLt k k2 then (k, v) :: (k2, v2) :: rest
    else (k2, v2) :: propsInsert k v rest

/-- The `required` list of a struct schema, in field order. -/
def structRequired : GoFieldList → List String
  | .nil => []
  | .cons name tag exported ty rest =>
    if exported then
      let jsonName := jsonFieldName name tag
      if jsonName == "" then structRequired rest
      else if requiredKind ty then jsonName :: structRequired rest
      else structRequired rest
    else structRequired rest

mutual

/-- `typeToJSONSchema` from `known.go`: unwrap pointers, then map each
kind to its schema; unsupported kinds fall back to `{type: string}`. -/
def typeToJSONSchema : GoType → Schema
  | .ptr t => typeToJSONSchema t
  | .struct fields => .obj (structProps fields) (structRequired fields)
  | .str => .sstr
  | .int => .sint
  | .float => .snum
  | .bool => .sbool
  | .slice t => .sarr (typeToJSONSchema t)
  | .array t => .sarr (typeToJSONSchema t)
  | .mapStr t => .smap (typeToJSONSchema t)
  | .iface => .sobj
  | .other => .sstr

/-- The `properties` map of a struct schema: skip unexported fields and
fields whose JSON name is empty, otherwise recurse on the field type.
Entries are kept key-sorted with later duplicates winning, mirroring the
Go map the function fills. -/
def structProps : GoFieldList → List (String × Schema)
  | .nil => []
  | .cons name tag exported ty rest =>
    if exported then
      let jsonName := jsonFieldName name tag
      if jsonName == "" then structProps rest
      else propsInsert jsonName (typeToJSONSchema ty) (structProps rest)
    else structProps rest

end

/-- Whether a schema value carries `type == "object"`. -/
def schemaTypeIsObject : Schema → Bool
  | .obj _ _ => true
  | .smap _ => true
  | .sobj => true
  | _ => false

/-- The `required` list of a schema (empty for non-objects). -/
def requiredOf : Schema → List String
  | .obj _ required => required
  | _ => []

/-- Iterated pointer wrapping, for the pointer-unwrapping loop at the top
of `typeToJSONSchema`. -/
def ptrWrap : Nat → GoType → GoType
  | 0, t => t
  | n + 1, t => .ptr (ptrWrap n t)

/-- The spec's words for the required rule, stated as written: required
iff neither optional/nullable (pointer), nor a collection/mapping
(slice, array, map), nor opaque/any (interface).  Defined apart from
`requiredKind` so the two can be compared. -/
def specRequiredKind : GoType → Bool
  | .ptr _ => false
  | .slice _ => false
  | .array _ => false
  | .mapStr _ => false
  | .iface => false
  | _ => true

/-- The required list the spec's words predict, with the same skipping of
unexported and omitted fields. -/
def specRequiredList : GoFieldList → List String
  | .nil => []
  | .cons name tag exported ty rest =>
    if exported then
      let jsonName := jsonFieldName name tag
      if jsonName == "" then specRequiredList rest
      else if specRequiredKind ty then jsonName :: specRequiredList rest
      else specRequiredList rest
    else specRequiredList rest

/-! ## The agent loop (`internal/analyzer/analyzer.go`)

The LLM provider and the GUAC transport are oracles.  Both are indexed by
an invocation counter so theorems can observe how often they are hit: the
loop threads `nllm` (LLM calls made so far) and `nguac` (dispatcher
attempts made so far).  The GUAC operation result type is an arbitrary
`α`: `net` stands for argument unmarshalling plus the GraphQL round trip
of an allowed operation, and `marshal` for `json.Marshal` of its result. -/

def MaxSteps : Nat := 5

def maxGUACRetries : Nat := 2

/-- The `SystemPrompt` string of `analyzer.go` (apostrophes written as
the escape x27). -/
def SystemPrompt : String :=
  "You are an AI agent analyzing software supply chain data.\nYou have access to various functions (tools) that can help you gather additional information.\nYour goal is to analyze the user\x27s query by possibly calling functions to gather context,\nand then provide a final, well-reasoned answer.\nWhen you need more information, call a function instead of making assumptions.\nNote: in GUAC, ID fields are numerical identifiers of the nodes in the graph so only use them for referencing specific known nodes.\nAfter you\x27ve gathered enough information, provide a concise final answer to the user.\n\n!!!IMPORTANT NOTE!!!: Do not repeat function calls with the same arguments if the results are already known.\nIf you attempt to call a function with the same arguments again, you will receive no new data.\nThus, do not waste steps by repeating the same call. If no new information is available, proceed to final answer.\n\nIf \x27top-level package GUAC heuristic\x27 or similar references appear, it indicates some form of dependency or related component was found.\nDo not conclude \x27no dependencies\x27 if any IsDependency results show packages or files. Instead, list them and accurately describe them."

/-- `StepData`: `Data interface{}` always receives a string here (the
marshalled tool output or a literal message), so it is modelled as one. -/
structure StepData where
  stepNumber : Nat
  functionName : String
  arguments : String
  data : String
  findings : String
deriving Repr, DecidableEq

/-- `AgentState` from `analyzer.go`. -/
structure AgentState where
  steps : Nat
  gatheredData : List StepData
  currentQuery : String
  originalQuery : String
deriving Repr, DecidableEq

/-- `AgentAction` from `analyzer.go`. -/
structure AgentAction where
  action : String
  function : String
  arguments : String
  message : String
deriving Repr, DecidableEq

/-- The request fields the analyzer reads: `Query`, and `Options.Model`
copied into the response metadata (`MaxTokens`/`Temperature` are
forwarded to the provider and do not influence control flow). -/
structure AnalysisRequest where
  query : String
  model : String
deriving Repr, DecidableEq

/-- `apimodels.AnalysisResponse` restricted to the fields the analyzer
computes deterministically; `Duration` is wall-clock time and is omitted. -/
structure AnalysisResponse where
  result : String
  queries : List (String × String)
  guacData : List StepData
  model : String
  tokensUsed : Nat
  steps : Nat
deriving Repr, DecidableEq

/-- One `llm.Provider.Analyze` call: system messages, user messages, and
whether tool descriptors were attached (`o.Tools`). -/
structure LLMInput where
  system : List String
  user : List String
  toolsAttached : Bool
deriving Repr, DecidableEq

/-- One `llm.Response`: text content, an optional function call
`(name, arguments)`, and `Usage.TotalTokens`. -/
structure LLMResp where
  content : String
  functionCall : Option (String × String)
  totalTokens : Nat
deriving Repr, DecidableEq

/-- The external collaborators of the analyzer. -/
structure Oracles (α : Type) where
  llm : Nat → LLMInput → Except String LLMResp
  net : Nat → String → String → Except String α
  marshal : α → Option String

/-- A Go error value inside the analyzer, as far as `errors.Is`
distinguishes it: either it wraps `errGuacUnreachable` or it does not. -/
inductive AgentErr where
  | guacUnreachable (msg : String)
  | other (msg : String)
deriving Repr, DecidableEq

/-- `fmt.Errorf(prefix ++ "%w", err)`: wrapping keeps the sentinel. -/
def wrapAgentErr (pre : String) : AgentErr → AgentErr
  | .guacUnreachable m => .guacUnreachable (pre ++ m)
  | .other m => .other (pre ++ m)

/-- The runtime names of `allowedOperations` in `known.go`
(`GetRuntimeFuncName` keeps the last dotted segment of the generated
operations `Dependencies`, `Vulnerabilities`, `Packages`). -/
def allowedOperationNames : List String :=
  ["Dependencies", "Vulnerabilities", "Packages"]

/-- `findOperationByName` from `invoke.go`, reduced to the membership it
computes. -/
def findOperationByName (fn : String) : Except String Unit :=
  if allowedOperationNames.contains fn then .ok ()
  else .error ("operation with name \"" ++ fn ++ "\" not found")

/-- `guac.Client.CallGUACOperation` → `tools.InvokeGUACOperation`: look
the operation up, then unmarshal the filter and perform the GraphQL call
(both folded into the `net` oracle, whose error covers argument-decode
and transport failures alike). -/
def CallGUACOperation (O : Oracles α) (k : Nat) (fn args : String) : Except String α :=
  match findOperationByName fn with
  | .error e => .error e
  | .ok _ => O.net k fn args

/-- The retry loop body of `callGUACWithRetry`: `k` counts dispatcher
attempts made so far, `remaining` the attempts left, `lastErr` the text
of the last failure.  When every attempt fails the error wraps
`errGuacUnreachable` (message `guac unreachable after retry`). -/
def retryLoop (O : Oracles α) (fn args : String) : Nat → Nat → String → Except AgentErr α × Nat
  | k, 0, lastErr => (.error (.guacUnreachable ("guac unreachable after retry: " ++ lastErr)), k)
  | k, remaining + 1, _ =>
    match CallGUACOperation O k fn args with
    | .ok v => (.ok v, k + 1)
    | .error e => retryLoop O fn args (k + 1) remaining e

/-- `callGUACWithRetry(ctx, fn, args, maxAttempts)`; the initial
`lastErr` stands for Go's nil error, never reported since the attempt
count is positive. -/
def callGUACWithRetry (O : Oracles α) (fn args : String) (k maxAttempts : Nat) : Except AgentErr α × Nat :=
  retryLoop O fn args k maxAttempts ""

/-- Go's byte slice `s[:n]` under the byte=char convention. -/
def goSlice (s : String) (n : Nat) : String := String.mk (s.toList.take n)

/-- `executeFunction`: retry the GUAC call; on success marshal the result
(a marshalling failure yields the literal error text and NO error), then
truncate to 5000 bytes with the `[truncated]` marker. -/
def executeFunction (O : Oracles α) (k : Nat) (fn args : String) : Except AgentErr String × Nat :=
  match callGUACWithRetry O fn args k maxGUACRetries with
  | (.error e, k2) => (.error e, k2)
  | (.ok v, k2) =>
    match O.marshal v with
    | none => (.ok "error: failed to parse tool output", k2)
    | some out =>
      (.ok (if out.length > 5000 then goSlice out 5000 ++ "\n[truncated]" else out), k2)

/-- The findings string of a deduplicated step. -/
def dedupFindings (k : Nat) (fn : String) (j : Nat) : String :=
  "Step " ++ toString k ++ ": " ++ fn ++ " called again with same arguments, reusing results from step " ++ toString j

/-- The dedup test of `handleFunctionCall`: same function name and
JSON-equal arguments. -/
def stepMatches (sd : StepData) (fn args : String) : Bool :=
  sd.functionName == fn && jsonEqual sd.arguments args

/-- `handleFunctionCall`: reuse the first matching prior step without
touching the backend, otherwise execute and record; errors are wrapped
with `function execution failed`. -/
def handleFunctionCall (O : Oracles α) (k : Nat) (st : AgentState) (fn args : String) :
    Except AgentErr AgentState × Nat :=
  match st.gatheredData.find? (fun sd => stepMatches sd fn args) with
  | some sd =>
    (.ok { st with
        gatheredData := st.gatheredData ++
          [{ stepNumber := st.steps + 1, functionName := fn, arguments := args,
             data := sd.data,
             findings := dedupFindings (st.steps + 1) fn sd.stepNumber }],
        steps := st.steps + 1 }, k)
  | none =>
    match executeFunction O k fn args with
    | (.error e, k2) => (.error (wrapAgentErr "function execution failed: " e), k2)
    | (.ok data, k2) =>
      (.ok { st with
          gatheredData := st.gatheredData ++
            [{ stepNumber := st.steps + 1, functionName := fn, arguments := args,
               data := data,
               findings := "Step " ++ toString (st.steps + 1) ++ ": " ++ fn ++ " returned " ++ data }],
          steps := st.steps + 1 }, k2)

/-- `summarizeFindings` (second analyzer version: no header line). -/
def summarizeFindings (data : List StepData) : String :=
  if data.isEmpty then "No previous findings."
  else data.foldl (fun acc step =>
    acc ++ "Step " ++ toString step.stepNumber ++ ":\n  Function: " ++ step.functionName ++
      "\n  Arguments: " ++ step.arguments ++ "\n  Data: " ++ step.data ++
      "\n  Findings: " ++ step.findings ++ "\n\n") ""

/-- The accumulation loop of `buildHistoryReminder`, with its seen-set of
`name ++ arguments` keys. -/
def reminderLines : List StepData → List String → String → String
  | [], _, acc => acc
  | sd :: rest, seen, acc =>
    let key := sd.functionName ++ sd.arguments
    if seen.contains key then reminderLines rest seen acc
    else reminderLines rest (key :: seen)
      (acc ++ "- Function: " ++ sd.functionName ++ " Arguments: " ++ sd.arguments ++ "\n")

/-- `buildHistoryReminder`. -/
def buildHistoryReminder (st : AgentState) : String :=
  if st.gatheredData.isEmpty then "No previous function calls have been made."
  else reminderLines st.gatheredData [] "Previously called functions (do not repeat these exact calls):\n"

/-- The system message composed by `getNextAgentAction`. -/
def decidingSystemContent (st : AgentState) : String :=
  SystemPrompt ++ "\n\nCurrent step: " ++ toString (st.steps + 1) ++ "/" ++ toString MaxSteps ++
    "\nPrevious findings:\n" ++ summarizeFindings st.gatheredData ++ "\n\n" ++ buildHistoryReminder st

/-- The full LLM input of a deciding iteration (tools attached). -/
def decidingInput (st : AgentState) : LLMInput :=
  { system := [decidingSystemContent st], user := [st.currentQuery], toolsAttached := true }

/-- `getNextAgentAction`: ask the LLM; a returned tool call becomes a
`function_call` action, anything else a `final_response`.  Also yields
`Usage.TotalTokens` of the call. -/
def getNextAgentAction (O : Oracles α) (st : AgentState) (nllm : Nat) :
    Except String (AgentAction × Nat) :=
  match O.llm nllm (decidingInput st) with
  | .error e => .error ("LLM analysis failed: " ++ e)
  | .ok resp =>
    match resp.functionCall with
    | some (fn, args) =>
      .ok ({ action := "function_call", function := fn, arguments := args, message := "" },
        resp.totalTokens)
    | none =>
      .ok ({ action := "final_response", function := "", arguments := "", message := resp.content },
        resp.totalTokens)

/-- `getFunctionCalls`: the ordered `(function, arguments)` pairs. -/
def getFunctionCalls (data : List StepData) : List (String × String) :=
  data.map fun step => (step.functionName, step.arguments)

/-- `truncateString`. -/
def truncateString (s : String) (maxLen : Nat) : String :=
  if s.length > maxLen then goSlice s maxLen ++ "\n[truncated]" else s

/-- `handleFinalResponse`. -/
def handleFinalResponse (req : AnalysisRequest) (st : AgentState) (usage : Nat) (message : String) :
    AnalysisResponse :=
  { result := truncateString message 5000,
    queries := getFunctionCalls st.gatheredData,
    guacData := st.gatheredData,
    model := req.model, tokensUsed := usage, steps := st.steps }

/-- The system message of `generateFinalSummary`. -/
def finalSummaryPrompt (st : AgentState) : String :=
  "\nYou have reached the maximum steps (" ++ toString MaxSteps ++ "). Please provide a final summary.\nOriginal Query: " ++
    st.originalQuery ++ "\n\nPrevious findings:\n" ++ summarizeFindings st.gatheredData ++
    "\n\nIn your summary provide a truthful and concise final answer that reflects all the data discovered.\n"

/-- `generateFinalSummary`: one more LLM call without tools, empty user
message; its content becomes the truncated result. -/
def generateFinalSummary (O : Oracles α) (req : AnalysisRequest) (st : AgentState) (nllm : Nat) :
    Except String AnalysisResponse :=
  match O.llm nllm { system := [finalSummaryPrompt st], user := [""], toolsAttached := false } with
  | .error e => .error ("failed to generate final summary: " ++ e)
  | .ok resp =>
    .ok { result := truncateString resp.content 5000,
          queries := getFunctionCalls st.gatheredData,
          guacData := st.gatheredData,
          model := req.model, tokensUsed := resp.totalTokens, steps := st.steps }

/-- The system message of `generateGUACFailureExplanation`. -/
def guacFailurePrompt (st : AgentState) : String :=
  "You attempted to use GUAC tools multiple times but they failed.\nNow provide a concise, friendly message to the user explaining that you cannot reach the GUAC service \nand thus cannot complete their request. Apologize briefly and ask them to try again later.\n\nOriginal query: " ++
    st.originalQuery ++ "\n\nPrevious findings:\n" ++ summarizeFindings st.gatheredData ++ "\n"

/-- `generateGUACFailureExplanation`: apology call with tools explicitly
removed; the backend error never reaches this response. -/
def generateGUACFailureExplanation (O : Oracles α) (req : AnalysisRequest) (st : AgentState) (nllm : Nat) :
    Except String AnalysisResponse :=
  match O.llm nllm { system := [guacFailurePrompt st], user := [""], toolsAttached := false } with
  | .error e => .error ("failed to generate GUAC failure explanation: " ++ e)
  | .ok resp =>
    .ok { result := truncateString resp.content 5000,
          queries := getFunctionCalls st.gatheredData,
          guacData := st.gatheredData,
          model := req.model, tokensUsed := resp.totalTokens, steps := st.steps }

/-- The `StepData.Data` literal recorded when GUAC is unreachable. -/
def guacFailData : String := "Failed to reach GUAC after multiple attempts."

/-- The `StepData.Findings` literal recorded when GUAC is unreachable. -/
def guacFailFindings : String := "GUAC unreachable after multiple attempts."

/-- The state after recording the GUAC-unreachable step for action
`(fn, args)`. -/
def guacFailState (st : AgentState) (fn args : String) : AgentState :=
  { st with
    gatheredData := st.gatheredData ++
      [{ stepNumber := st.steps + 1, functionName := fn, arguments := args,
         data := guacFailData, findings := guacFailFindings }],
    steps := st.steps + 1 }

/-- The `for state.Steps < MaxSteps` loop of `Analyze`.  Fuel only bounds
the recursion: from the entry point (`fuel = MaxSteps`, `steps = 0`) each
iteration raises `steps` by exactly one, so fuel runs out precisely when
`steps` reaches `MaxSteps`, where Go also leaves the loop for the forced
summary. -/
def analyzeLoop (O : Oracles α) (req : AnalysisRequest) :
    Nat → Nat → Nat → AgentState → Except String AnalysisResponse
  | 0, nllm, _, st => generateFinalSummary O req st nllm
  | fuel + 1, nllm, nguac, st =>
    if st.steps < MaxSteps then
      match getNextAgentAction O st nllm with
      | .error e => .error e
      | .ok (action, usage) =>
        if action.action == "function_call" then
          match handleFunctionCall O nguac st action.function action.arguments with
          | (.ok st2, nguac2) => analyzeLoop O req fuel (nllm + 1) nguac2 st2
          | (.error (.guacUnreachable _), _) =>
            generateGUACFailureExplanation O req
              (guacFailState st action.function action.arguments) (nllm + 1)
          | (.error (.other m), _) => .error m
        else if action.action == "final_response" then
          .ok (handleFinalResponse req st usage action.message)
        else .error ("unknown agent action: " ++ action.action)
    else generateFinalSummary O req st nllm

/-- `Analyzer.Analyze`: fresh state, then the loop. -/
def Analyze (O : Oracles α) (req : AnalysisRequest) : Except String AnalysisResponse :=
  analyzeLoop O req MaxSteps 0 0
    { steps := 0, gatheredData := [], currentQuery := req.query, originalQuery := req.query }

/-! ## The Known-Query tool (`internal/guac/tools/known.go`), package branch

Go code that may hit a runtime panic (out-of-range indexing) runs in
`Except KnownErr`, where `KnownErr.returned` is an ordinary returned
error value and `KnownErr.outOfRange` an aborted evaluation. -/

/-- Outcome of a Go computation that can either return an error value or
panic with an index-out-of-range runtime error. -/
inductive KnownErr where
  | returned (msg : String)
  | outOfRange
deriving Repr, DecidableEq

/-- Go's `xs[i]`: panics when the index is out of range. -/
def goIndex (xs : List β) (i : Nat) : Except KnownErr β :=
  match xs.get? i with
  | some x => .ok x
  | none => .error .outOfRange

/-- `fmt.Errorf(pre ++ "%v", err)` around a returned error; a panic is
not an error value and propagates unchanged. -/
def wrapKnownErr (pre : String) : KnownErr → KnownErr
  | .returned m => .returned (pre ++ m)
  | .outOfRange => .outOfRange

/-- A version node of the package trie returned by `model.Packages`
(only the fields `knownQueryPackage` reads are carried). -/
structure PkgVersionNode where
  id : String
deriving Repr, DecidableEq

structure PkgNameNode where
  id : String
  versions : List PkgVersionNode
deriving Repr, DecidableEq

structure PkgNamespaceNode where
  id : String
  names : List PkgNameNode
deriving Repr, DecidableEq

structure PkgTreeNode where
  id : String
  namespaces : List PkgNamespaceNode
deriving Repr, DecidableEq

/-- A qualifier of `helpers.PurlToPkg`'s output. -/
structure PkgQualifier where
  key : String
  value : String
deriving Repr, DecidableEq

/-- `model.PkgInputSpec`, the output of `helpers.PurlToPkg`. -/
structure PkgInputSpec where
  type : String
  nspace : Option String
  name : String
  version : Option String
  subpath : Option String
  qualifiers : List PkgQualifier
deriving Repr, DecidableEq

structure PackageQualifierSpec where
  key : String
  value : Option String
deriving Repr, DecidableEq

/-- `model.PkgSpec`, the filter handed to `model.Packages`. -/
structure PkgSpec where
  type : Option String
  nspace : Option String
  name : Option String
  version : Option String
  subpath : Option String
  qualifiers : List PackageQualifierSpec
deriving Repr, DecidableEq

/-- Lines 78–94 of `known.go`: turn the parsed pURL into a `PkgSpec`,
promoting each qualifier value to a pointer. -/
def buildPkgFilter (pkgInput : PkgInputSpec) : PkgSpec :=
  { type := some pkgInput.type,
    nspace := pkgInput.nspace,
    name := some pkgInput.name,
    version := pkgInput.version,
    subpath := pkgInput.subpath,
    qualifiers := pkgInput.qualifiers.map fun q => { key := q.key, value := some q.value } }

/-- Source trie fields read by the `hasSrcAt` and occurrence rows. -/
structure SrcNameNode where
  name : String
deriving Repr, DecidableEq

structure SrcNamespaceNode where
  nspace : String
  names : List SrcNameNode
deriving Repr, DecidableEq

structure SourceTree where
  type : String
  namespaces : List SrcNamespaceNode
deriving Repr, DecidableEq

/-- Package trie fields read when an occurrence's subject is a package
(or when building the purl of a `hasSrcAt` package). -/
structure PkgSubjVersionNode where
  version : String
deriving Repr, DecidableEq

structure PkgSubjNameNode where
  name : String
  versions : List PkgSubjVersionNode
deriving Repr, DecidableEq

structure PkgSubjNamespaceNode where
  nspace : String
  names : List PkgSubjNameNode
deriving Repr, DecidableEq

structure PkgSubject where
  type : String
  namespaces : List PkgSubjNamespaceNode
deriving Repr, DecidableEq

/-- The subject union of an `IsOccurrence` node. -/
inductive OccSubject where
  | pkg (p : PkgSubject)
  | src (s : SourceTree)
  | otherSubject
deriving Repr, DecidableEq

/-- The `model.Edge` values used by the SBOM/SLSA fallback. -/
inductive Edge where
  | artifactHasSbom
  | artifactHasSlsa
deriving Repr, DecidableEq

/-- One node of a `model.Neighbors` response, by the type switch of
`queryKnownNeighbors`.  Each constructor carries the node id plus the
payload its rows read (the scorecard aggregate score is carried already
rendered, as `%f` float formatting is outside the model). -/
inductive NeighborNode where
  | certifyVuln (id : String) (vulnType : String) (vulnIDs : List String)
  | certifyBad (id justification : String)
  | certifyGood (id justification : String)
  | scorecard (id scoreText : String)
  | vexLink (id status : String)
  | hasSBOM (id downloadLocation : String)
  | hasSLSA (id origin : String)
  | hasSrcAt (id : String) (source : SourceTree) (pkg : PkgSubject)
  | hashEqual (id : String)
  | occurrence (id : String) (subject : OccSubject) (artifactAlgorithm artifactDigest : String)
  | pkgEqual (id : String)
  | certifyLegal (id declaredLicense discoveredLicense origin : String)
  | unknown
deriving Repr, DecidableEq

/-- `model.ArtifactSpec` (pointer fields carried as plain strings). -/
structure ArtifactSpec where
  algorithm : String
  digest : String
deriving Repr, DecidableEq

/-- An artifact of a `model.Artifacts` response (only `Id` is read). -/
structure ArtifactNode where
  id : String
deriving Repr, DecidableEq

/-- External collaborators of the Known-Query tool: `helpers.PurlToPkg`
and `helpers.PkgToPurl` (pure helpers of the guac dependency), and the
GraphQL operations `Packages`, `Neighbors`, `Artifacts`. -/
structure KnownOracle where
  purlToPkg : String → Except String PkgInputSpec
  pkgToPurl : String → String → String → String → String → List String → String
  packages : PkgSpec → Except String (List PkgTreeNode)
  neighbors : String → List Edge → Except String (List NeighborNode)
  artifacts : ArtifactSpec → Except String (List ArtifactNode)

structure KnownRow where
  nodeType : String
  nodeId : String
  extraInfo : String
deriving Repr, DecidableEq

structure KnownSection where
  title : String
  rows : List KnownRow
  edges : List String
deriving Repr, DecidableEq

structure KnownResult where
  sections : List KnownSection
  visualizerUrl : String
deriving Repr, DecidableEq

def hashEqualStr : String := "hashEqual"
def scorecardStr : String := "scorecard"
def occurrenceStr : String := "occurrence"
def hasSrcAtStr : String := "hasSrcAt"
def hasSBOMStr : String := "hasSBOM"
def hasSLSAStr : String := "hasSLSA"
def certifyVulnStr : String := "certifyVuln"
def certifyLegalStr : String := "certifyLegal"
def vexLinkStr : String := "vexLink"
def badLinkStr : String := "badLink"
def goodLinkStr : String := "goodLink"
def pkgEqualStr : String := "pkgEqual"
def packageSubjectType : String := "package"
def sourceSubjectType : String := "source"
def artifactSubjectType : String := "artifact"
def noVulnType : String := "noVuln"

/-- The `neighbors` record of `known.go`: per-kind collections (each list
holds only nodes of its kind, in response order). -/
structure CollectedNeighbors where
  hashEquals : List NeighborNode := []
  scorecards : List NeighborNode := []
  occurrences : List NeighborNode := []
  hasSrcAt : List NeighborNode := []
  hasSBOMs : List NeighborNode := []
  hasSLSAs : List NeighborNode := []
  certifyVulns : List NeighborNode := []
  certifyLegals : List NeighborNode := []
  vexLinks : List NeighborNode := []
  badLinks : List NeighborNode := []
  goodLinks : List NeighborNode := []
  pkgEquals : List NeighborNode := []
deriving Repr, DecidableEq

/-- The collection loop of `queryKnownNeighbors`: sort each neighbor into
its kind's list and append its id to the path; unmatched kinds are
skipped (`default: continue`). -/
def collectNeighbors : List NeighborNode → CollectedNeighbors × List String
  | [] => ({}, [])
  | n :: rest =>
    let p := collectNeighbors rest
    match n with
    | .certifyVuln id _ _ => ({ p.1 with certifyVulns := n :: p.1.certifyVulns }, id :: p.2)
    | .certifyBad id _ => ({ p.1 with badLinks := n :: p.1.badLinks }, id :: p.2)
    | .certifyGood id _ => ({ p.1 with goodLinks := n :: p.1.goodLinks }, id :: p.2)
    | .scorecard id _ => ({ p.1 with scorecards := n :: p.1.scorecards }, id :: p.2)
    | .vexLink id _ => ({ p.1 with vexLinks := n :: p.1.vexLinks }, id :: p.2)
    | .hasSBOM id _ => ({ p.1 with hasSBOMs := n :: p.1.hasSBOMs }, id :: p.2)
    | .hasSLSA id _ => ({ p.1 with hasSLSAs := n :: p.1.hasSLSAs }, id :: p.2)
    | .hasSrcAt id _ _ => ({ p.1 with hasSrcAt := n :: p.1.hasSrcAt }, id :: p.2)
    | .hashEqual id => ({ p.1 with hashEquals := n :: p.1.hashEquals }, id :: p.2)
    | .occurrence id _ _ _ => ({ p.1 with occurrences := n :: p.1.occurrences }, id :: p.2)
    | .pkgEqual id => ({ p.1 with pkgEquals := n :: p.1.pkgEquals }, id :: p.2)
    | .certifyLegal id _ _ _ => ({ p.1 with certifyLegals := n :: p.1.certifyLegals }, id :: p.2)
    | .unknown => p

/-- `queryKnownNeighbors`: one `Neighbors(id, [])` call, then collect. -/
def queryKnownNeighbors (O : KnownOracle) (subjectQueryID : String) :
    Except KnownErr (CollectedNeighbors × List String) :=
  match O.neighbors subjectQueryID [] with
  | .error e => .error (.returned ("error querying neighbors: " ++ e))
  | .ok ns => .ok (collectNeighbors ns)

/-- `getAssociatedArtifact`: resolve the occurrence's artifact and
re-query its neighbors filtered to one edge. -/
def getAssociatedArtifact (O : KnownOracle) (alg dig : String) (edge : Edge) :
    Except String (List NeighborNode) :=
  match O.artifacts { algorithm := alg, digest := dig } with
  | .error e => .error e
  | .ok [a] => O.neighbors a.id [edge]
  | .ok _ => .error "artifact not found"

/-- Rows for `certifyVuln` nodes: one row per vulnerability id, or a
single `noVuln` row. -/
def certifyVulnRows : List NeighborNode → List KnownRow
  | [] => []
  | .certifyVuln id vulnType vulnIDs :: rest =>
    (if vulnType != noVulnType then
      vulnIDs.map fun v => { nodeType := certifyVulnStr, nodeId := id, extraInfo := "vulnerability ID: " ++ v }
    else
      [{ nodeType := certifyVulnStr, nodeId := id, extraInfo := "vulnerability ID: " ++ noVulnType }])
      ++ certifyVulnRows rest
  | _ :: rest => certifyVulnRows rest

def badLinkRows : List NeighborNode → List KnownRow
  | [] => []
  | .certifyBad id j :: rest =>
    { nodeType := badLinkStr, nodeId := id, extraInfo := "justification: " ++ j } :: badLinkRows rest
  | _ :: rest => badLinkRows rest

def goodLinkRows : List NeighborNode → List KnownRow
  | [] => []
  | .certifyGood id j :: rest =>
    { nodeType := goodLinkStr, nodeId := id, extraInfo := "justification: " ++ j } :: goodLinkRows rest
  | _ :: rest => goodLinkRows rest

def scorecardRows : List NeighborNode → List KnownRow
  | [] => []
  | .scorecard id score :: rest =>
    { nodeType := scorecardStr, nodeId := id, extraInfo := "Overall Score: " ++ score } :: scorecardRows rest
  | _ :: rest => scorecardRows rest

def vexLinkRows : List NeighborNode → List KnownRow
  | [] => []
  | .vexLink id status :: rest =>
    { nodeType := vexLinkStr, nodeId := id, extraInfo := "Vex Status: " ++ status } :: vexLinkRows rest
  | _ :: rest => vexLinkRows rest

def hasSBOMDirectRows : List NeighborNode → List KnownRow
  | [] => []
  | .hasSBOM id loc :: rest =>
    { nodeType := hasSBOMStr, nodeId := id, extraInfo := "SBOM Download Location: " ++ loc } :: hasSBOMDirectRows rest
  | _ :: rest => hasSBOMDirectRows rest

/-- SBOM fallback: for each occurrence resolve the artifact's own
`hasSbom` neighbors; a lookup failure is logged and skipped. -/
def sbomFallbackRows (O : KnownOracle) : List NeighborNode → List KnownRow
  | [] => []
  | .occurrence _ _ alg dig :: rest =>
    (match getAssociatedArtifact O alg dig .artifactHasSbom with
     | .error _ => []
     | .ok nbrs => nbrs.filterMap fun n =>
        match n with
        | .hasSBOM id loc =>
          some { nodeType := hasSBOMStr, nodeId := id, extraInfo := "SBOM Download Location: " ++ loc }
        | _ => none)
      ++ sbomFallbackRows O rest
  | _ :: rest => sbomFallbackRows O rest

def hasSLSADirectRows : List NeighborNode → List KnownRow
  | [] => []
  | .hasSLSA id origin :: rest =>
    { nodeType := hasSLSAStr, nodeId := id, extraInfo := "SLSA Attestation Location: " ++ origin } :: hasSLSADirectRows rest
  | _ :: rest => hasSLSADirectRows rest

/-- SLSA fallback, analogous to the SBOM one. -/
def slsaFallbackRows (O : KnownOracle) : List NeighborNode → List KnownRow
  | [] => []
  | .occurrence _ _ alg dig :: rest =>
    (match getAssociatedArtifact O alg dig .artifactHasSlsa with
     | .error _ => []
     | .ok nbrs => nbrs.filterMap fun n =>
        match n with
        | .hasSLSA id origin =>
          some { nodeType := hasSLSAStr, nodeId := id, extraInfo := "SLSA Attestation Location: " ++ origin }
        | _ => none)
      ++ slsaFallbackRows O rest
  | _ :: rest => slsaFallbackRows O rest

/-- Rows for `hasSrcAt` nodes; the source (or package) trie is indexed
at `[0][0]` without a guard, so malformed tries abort. -/
def hasSrcAtRows (O : KnownOracle) (subjectType : String) :
    List NeighborNode → Except KnownErr (List KnownRow)
  | [] => .ok []
  | .hasSrcAt id source pkg :: rest => do
    let row ←
      if subjectType == packageSubjectType then do
        let ns ← goIndex source.namespaces 0
        let nm ← goIndex ns.names 0
        let nsStr := if goStartsWith ns.nspace "https://" then ns.nspace else "https://" ++ ns.nspace
        pure { nodeType := hasSrcAtStr, nodeId := id,
               extraInfo := "Source: " ++ source.type ++ "+" ++ nsStr ++ "/" ++ nm.name }
      else do
        let pns ← goIndex pkg.namespaces 0
        let pnm ← goIndex pns.names 0
        pure { nodeType := hasSrcAtStr, nodeId := id,
               extraInfo := "Source for Package: " ++ O.pkgToPurl pkg.type pns.nspace pnm.name "" "" [] }
    let more ← hasSrcAtRows O subjectType rest
    .ok (row :: more)
  | _ :: rest => hasSrcAtRows O subjectType rest

def hashEqualRows : List NeighborNode → List KnownRow
  | [] => []
  | .hashEqual id :: rest =>
    { nodeType := hashEqualStr, nodeId := id, extraInfo := "" } :: hashEqualRows rest
  | _ :: rest => hashEqualRows rest

/-- Rows for occurrence nodes: for an artifact subject the occurrence's
own subject trie is indexed without a guard; otherwise the artifact's
`algorithm:digest` is printed. -/
def occurrenceRows (O : KnownOracle) (subjectType : String) :
    List NeighborNode → Except KnownErr (List KnownRow)
  | [] => .ok []
  | .occurrence id subject alg dig :: rest => do
    let here ←
      if subjectType == artifactSubjectType then
        match subject with
        | .pkg v => do
          let ns ← goIndex v.namespaces 0
          let nm ← goIndex ns.names 0
          let ver ← goIndex nm.versions 0
          pure [{ nodeType := occurrenceStr, nodeId := id,
                  extraInfo := "Occurrence for Package: " ++ O.pkgToPurl v.type ns.nspace nm.name ver.version "" [] }]
        | .src v => do
          let ns ← goIndex v.namespaces 0
          let nm ← goIndex ns.names 0
          let nsStr := if goStartsWith ns.nspace "https://" then ns.nspace else "https://" ++ ns.nspace
          pure [{ nodeType := occurrenceStr, nodeId := id,
                  extraInfo := "Occurrence for Source: " ++ v.type ++ "+" ++ nsStr ++ "/" ++ nm.name }]
        | .otherSubject => pure []
      else
        pure [{ nodeType := occurrenceStr, nodeId := id,
                extraInfo := "Occurrence for Artifact: " ++ alg ++ ":" ++ dig }]
    let more ← occurrenceRows O subjectType rest
    .ok (here ++ more)
  | _ :: rest => occurrenceRows O subjectType rest

def pkgEqualRows : List NeighborNode → List KnownRow
  | [] => []
  | .pkgEqual id :: rest =>
    { nodeType := pkgEqualStr, nodeId := id, extraInfo := "" } :: pkgEqualRows rest
  | _ :: rest => pkgEqualRows rest

def certifyLegalRows : List NeighborNode → List KnownRow
  | [] => []
  | .certifyLegal id declared discovered origin :: rest =>
    { nodeType := certifyLegalStr, nodeId := id,
      extraInfo := "Declared License: " ++ declared ++ ", Discovered License: " ++ discovered ++ ", Origin: " ++ origin }
      :: certifyLegalRows rest
  | _ :: rest => certifyLegalRows rest

/-- `getOutputBasedOnNode`: the switch over the requested node type. -/
def getOutputBasedOnNode (O : KnownOracle) (cn : CollectedNeighbors) (nodeType subjectType : String) :
    Except KnownErr (List KnownRow) :=
  if nodeType == certifyVulnStr then .ok (certifyVulnRows cn.certifyVulns)
  else if nodeType == badLinkStr then .ok (badLinkRows cn.badLinks)
  else if nodeType == goodLinkStr then .ok (goodLinkRows cn.goodLinks)
  else if nodeType == scorecardStr then .ok (scorecardRows cn.scorecards)
  else if nodeType == vexLinkStr then .ok (vexLinkRows cn.vexLinks)
  else if nodeType == hasSBOMStr then
    .ok (if cn.hasSBOMs.length > 0 then hasSBOMDirectRows cn.hasSBOMs else sbomFallbackRows O cn.occurrences)
  else if nodeType == hasSLSAStr then
    .ok (if cn.hasSLSAs.length > 0 then hasSLSADirectRows cn.hasSLSAs else slsaFallbackRows O cn.occurrences)
  else if nodeType == hasSrcAtStr then hasSrcAtRows O subjectType cn.hasSrcAt
  else if nodeType == hashEqualStr then .ok (hashEqualRows cn.hashEquals)
  else if nodeType == occurrenceStr then occurrenceRows O subjectType cn.occurrences
  else if nodeType == pkgEqualStr then .ok (pkgEqualRows cn.pkgEquals)
  else if nodeType == certifyLegalStr then .ok (certifyLegalRows cn.certifyLegals)
  else .ok []

/-- The seen-set loop of `removeDuplicateValuesFromPath`. -/
def removeDupSeen (seen : List String) : List String → List String
  | [] => []
  | p :: rest =>
    if seen.contains p then removeDupSeen seen rest
    else p :: removeDupSeen (p :: seen) rest

/-- `removeDuplicateValuesFromPath`: keep the first occurrence of each
node id, in order. -/
def removeDuplicateValuesFromPath (path : List String) : List String :=
  removeDupSeen [] path

/-- `knownQueryPackage`: parse the pURL, require exactly one package,
then build the name-node section, the version-node section, and the
visualizer URL from the deduplicated concatenation of both paths.  The
trie indexing at `Namespaces[0].Names[0]` (line 104) and
`...Versions[0]` (line 129) is unguarded. -/
def knownQueryPackage (O : KnownOracle) (purl : String) : Except KnownErr KnownResult := do
  let pkgInput ←
    match O.purlToPkg purl with
    | .error e => .error (KnownErr.returned ("failed to parse PURL: " ++ e))
    | .ok v => .ok v
  let pkgFilter := buildPkgFilter pkgInput
  let pkgs ←
    match O.packages pkgFilter with
    | .error e => .error (KnownErr.returned e)
    | .ok v => .ok v
  if pkgs.length != 1 then .error (.returned "failed to locate package based on purl") else do
  let pkg0 ← goIndex pkgs 0
  let ns0 ← goIndex pkg0.namespaces 0
  let name0 ← goIndex ns0.names 0
  let nameQ ← (queryKnownNeighbors O name0.id).mapError
    (wrapKnownErr "error querying for package name neighbors: ")
  let nameNeighbors := nameQ.1
  let namePath := nameQ.2
  let nr1 ← getOutputBasedOnNode O nameNeighbors hasSrcAtStr packageSubjectType
  let nr2 ← getOutputBasedOnNode O nameNeighbors badLinkStr packageSubjectType
  let nr3 ← getOutputBasedOnNode O nameNeighbors goodLinkStr packageSubjectType
  let packageNameNodesSection : KnownSection :=
    { title := "Package Name Nodes", rows := nr1 ++ nr2 ++ nr3, edges := namePath }
  let namePathFull := [name0.id, ns0.id, pkg0.id] ++ namePath
  let ver0 ← goIndex name0.versions 0
  let verQ ← (queryKnownNeighbors O ver0.id).mapError
    (wrapKnownErr "error querying for package version neighbors: ")
  let versionNeighbors := verQ.1
  let versionPath := verQ.2
  let vr1 ← getOutputBasedOnNode O versionNeighbors certifyVulnStr packageSubjectType
  let vr2 ← getOutputBasedOnNode O versionNeighbors hasSBOMStr packageSubjectType
  let vr3 ← getOutputBasedOnNode O versionNeighbors occurrenceStr packageSubjectType
  let vr4 ← getOutputBasedOnNode O versionNeighbors certifyLegalStr packageSubjectType
  let vr5 ← getOutputBasedOnNode O versionNeighbors hasSLSAStr packageSubjectType
  let vr6 ← getOutputBasedOnNode O versionNeighbors vexLinkStr packageSubjectType
  let vr7 ← getOutputBasedOnNode O versionNeighbors pkgEqualStr packageSubjectType
  let vr8 ← getOutputBasedOnNode O versionNeighbors badLinkStr packageSubjectType
  let vr9 ← getOutputBasedOnNode O versionNeighbors goodLinkStr packageSubjectType
  let packageVersionNodesSection : KnownSection :=
    { title := "Package Version Nodes",
      rows := vr1 ++ vr2 ++ vr3 ++ vr4 ++ vr5 ++ vr6 ++ vr7 ++ vr8 ++ vr9,
      edges := versionPath }
  let versionPathFull := [ver0.id, name0.id, ns0.id, pkg0.id] ++ versionPath
  .ok { sections := [packageNameNodesSection, packageVersionNodesSection],
        visualizerUrl := "http://localhost:3000/?path=" ++
          String.intercalate "," (removeDuplicateValuesFromPath (namePathFull ++ versionPathFull)) }

/-- A `hasSrcAt` neighbor whose source trie survives the unguarded
`Namespaces[0].Names[0]` access (every other kind is safe in the package
branch). -/
def srcAtSafe : NeighborNode → Bool
  | .hasSrcAt _ source _ =>
    match source.namespaces with
    | [] => false
    | ns :: _ => !ns.names.isEmpty
  | _ => true

/-!
# Theorems

Claims C1–C10, settled against the embedding above.  Shared helper
lemmas come first.
-/

/-- `List.find?` returns the element at the least matching index. -/
theorem find?_of_first {γ : Type} (p : γ → Bool) :
    ∀ (l : List γ) (i : Nat) (hi : i < l.length),
      p (l.get ⟨i, hi⟩) = true →
      (∀ (j : Nat) (hj : j < l.length), j < i → p (l.get ⟨j, hj⟩) = false) →
      l.find? p = some (l.get ⟨i, hi⟩) := by
  intro l
  induction l with
  | nil => intro i hi; exact absurd hi (by simp)
  | cons x xs ih =>
    intro i hi hp hmin
    cases i with
    | zero =>
      simp only [List.get] at hp ⊢
      simp [List.find?_cons_of_pos, hp]
    | succ i =>
      have hx : p x = false := hmin 0 (by simp) (Nat.succ_pos i)
      have hi2 : i < xs.length := by simpa using hi
      have hp2 : p (xs.get ⟨i, hi2⟩) = true := by simpa using hp
      have hmin2 : ∀ (j : Nat) (hj : j < xs.length), j < i → p (xs.get ⟨j, hj⟩) = false := by
        intro j hj hji
        have := hmin (j + 1) (by simpa using Nat.succ_lt_succ hj) (Nat.succ_lt_succ hji)
        simpa using this
      rw [List.find?_cons_of_neg _ (by simp [hx])]
      simpa using ih i hi2 hp2 hmin2

/-- Claim C5 counterexample: the payloads `"1"` (a JSON string) and `1`
(a JSON number) decode to different JSON values, yet `jsonEqual` reports
them equal, because both render as `1` under Go's default formatting.  So
the dedup equality is not "never equating two distinct JSON values". -/
theorem jsonEqual_equates_distinct_values :
    jsonEqual "\"1\"" "1" = true ∧
    unmarshal "\"1\"" = some (GoVal.str "1") ∧
    unmarshal "1" = some (GoVal.num 1) ∧
    GoVal.str "1" ≠ GoVal.num 1 :=
  ⟨rfl, rfl, rfl, fun h => nomatch h⟩

/-- Claim C5 (amended): `jsonEqual` compares Go's default rendering of
the DECODED values, hence payloads that decode to the same JSON value —
in particular payloads differing only in whitespace or object-key order —
always compare equal; it is however coarser than JSON-value equality. -/
theorem jsonEqual_of_same_decoded (a b : String) (h : unmarshal a = unmarshal b) :
    jsonEqual a b = true := by
  simp [jsonEqual, h]

/-- Witness for `jsonEqual_of_same_decoded`: two object payloads with
different whitespace and key order decode identically and compare equal. -/
theorem jsonEqual_of_same_decoded_witness :
    unmarshal "\x7b\"a\":1, \"b\":2\x7d" = unmarshal " \x7b \"b\" : 2, \"a\" : 1 \x7d " ∧
    jsonEqual "\x7b\"a\":1, \"b\":2\x7d" " \x7b \"b\" : 2, \"a\" : 1 \x7d " = true :=
  ⟨rfl, jsonEqual_of_same_decoded _ _ rfl⟩

/-- Length of a Go slice prefix. -/
theorem goSlice_length (s : String) (n : Nat) : (goSlice s n).length = min n s.length := by
  show (s.toList.take n).length = min n s.length
  rw [List.length_take]
  rfl

/-- The truncation pattern shared by `truncateString` and
`executeFunction` stays within `maxLen + 12` bytes. -/
theorem truncPattern_length_le (s : String) (maxLen : Nat) :
    (if s.length > maxLen then goSlice s maxLen ++ "\n[truncated]" else s).length ≤ maxLen + 12 := by
  split
  · rw [String.length_append, goSlice_length]
    have : ("\n[truncated]" : String).length = 12 := rfl
    omega
  · omega

/-- Claim C7: `truncateString` leaves strings of at most 5000 bytes
unchanged and otherwise keeps the first 5000 bytes plus the exact
`"\n[truncated]"` suffix; consequently its output — and the tool result
`executeFunction` feeds back to the LLM — is at most 5012 bytes. -/
theorem truncateString_spec {α : Type} (s : String) :
    truncateString s 5000 = (if s.length ≤ 5000 then s else goSlice s 5000 ++ "\n[truncated]") ∧
    (truncateString s 5000).length ≤ 5012 ∧
    ∀ (O : Oracles α) (k : Nat) (fn args out : String),
      (executeFunction O k fn args).1 = .ok out → out.length ≤ 5012 := by
  refine ⟨?_, ?_, ?_⟩
  · rw [truncateString]
    rcases Nat.lt_or_ge 5000 s.length with h | h
    · rw [if_pos h, if_neg (by omega)]
    · rw [if_neg (by omega), if_pos (by omega)]
  · exact truncPattern_length_le s 5000
  · intro O k fn args out h
    rw [executeFunction] at h
    rcases hc : callGUACWithRetry O fn args k maxGUACRetries with ⟨res, k2⟩
    rw [hc] at h
    cases res with
    | error e => simp at h
    | ok v =>
      dsimp only at h
      cases hm : O.marshal v with
      | none =>
        rw [hm] at h
        simp at h
        subst out
        decide
      | some o =>
        rw [hm] at h
        simp at h
        subst out
        exact truncPattern_length_le o 5000

/-- A tool oracle whose operation succeeds and marshals to `RESULT`. -/
def exC7O : Oracles Unit :=
  { llm := fun _ _ => .error "closed",
    net := fun _ _ _ => .ok (),
    marshal := fun _ => some "RESULT" }

/-- Witness for `truncateString_spec`: a concrete successful tool call
whose recorded output obeys the bound. -/
theorem truncateString_spec_witness :
    (executeFunction exC7O 0 "Packages" "\x7b\x7d").1 = .ok "RESULT" ∧ ("RESULT" : String).length ≤ 5012 :=
  ⟨rfl, (truncateString_spec "x").2.2 exC7O 0 "Packages" "\x7b\x7d" "RESULT" rfl⟩

/-- `requiredKind` and the amended rule agree by definition on every
kind except that the amended rule names arrays explicitly as required. -/
def amendedRequiredKind : GoType → Bool
  | .ptr _ => false
  | .slice _ => false
  | .mapStr _ => false
  | .iface => false
  | _ => true

/-- The required list the AMENDED claim predicts: pointer, slice, map and
interface fields are optional; every other kind — fixed-size arrays
included — is required. -/
def amendedRequiredList : GoFieldList → List String
  | .nil => []
  | .cons name tag exported ty rest =>
    if exported then
      let jsonName := jsonFieldName name tag
      if jsonName == "" then amendedRequiredList rest
      else if amendedRequiredKind ty then jsonName :: amendedRequiredList rest
      else amendedRequiredList rest
    else amendedRequiredList rest

/-- A struct with a single exported fixed-size array field and no JSON
tag. -/
def arrayFieldStruct : GoFieldList := .cons "Arr" "" true (.array .str) .nil

/-- Claim C6 counterexample: for a struct with an array field the
synthesiser marks the field required (`reflect.Array` is none of Ptr,
Slice, Map, Interface), while the claim's rule — arrays are collections
and hence optional — predicts an empty required list. -/
theorem typeToJSONSchema_array_required :
    requiredOf (typeToJSONSchema (.struct arrayFieldStruct)) = ["arr"] ∧
    specRequiredList arrayFieldStruct = [] ∧
    requiredOf (typeToJSONSchema (.struct arrayFieldStruct)) ≠ specRequiredList arrayFieldStruct :=
  ⟨rfl, rfl, by decide⟩

/-- The required heuristic of the code and the amended rule agree on
every kind. -/
theorem requiredKind_eq_amended (t : GoType) : requiredKind t = amendedRequiredKind t := by
  cases t <;> rfl

/-- The synthesised required list is exactly the amended rule's list. -/
theorem structRequired_eq_amendedList :
    ∀ fields : GoFieldList, structRequired fields = amendedRequiredList fields
  | .nil => by simp only [structRequired, amendedRequiredList]
  | .cons name tag exported ty rest => by
    simp only [structRequired, amendedRequiredList, requiredKind_eq_amended,
      structRequired_eq_amendedList rest]

/-- Claim C6 (amended): every synthesised parameters schema of a struct
input (behind any number of pointers) has type `object`; a field is
required iff its kind is none of pointer, slice, map, interface — so
fixed-size arrays, unlike slices, ARE required; unexported and
`json:"-"` fields are skipped (they contribute neither properties nor
required entries); unsupported kinds fall back to `{type: string}`. -/
theorem typeToJSONSchema_spec :
    (∀ (n : Nat) (fields : GoFieldList),
      schemaTypeIsObject (typeToJSONSchema (ptrWrap n (.struct fields))) = true) ∧
    (∀ fields : GoFieldList, requiredOf (typeToJSONSchema (.struct fields)) = amendedRequiredList fields) ∧
    typeToJSONSchema .other = .sstr := by
  refine ⟨?_, ?_, rfl⟩
  · intro n
    induction n with
    | zero => intro fields; rfl
    | succ n ih =>
      intro fields
      simp only [ptrWrap, typeToJSONSchema]
      exact ih fields
  · intro fields
    have h1 : requiredOf (typeToJSONSchema (.struct fields)) = structRequired fields := by
      simp only [typeToJSONSchema, requiredOf]
    rw [h1, structRequired_eq_amendedList]

/-! ### Agent-loop lemmas -/

/-- A successful `handleFunctionCall` raises `steps` by one and appends
exactly one `StepData`. -/
theorem handleFunctionCall_ok {α : Type} (O : Oracles α) (k : Nat) (st : AgentState)
    (fn args : String) (st2 : AgentState) (k2 : Nat)
    (h : handleFunctionCall O k st fn args = (.ok st2, k2)) :
    st2.steps = st.steps + 1 ∧ st2.gatheredData.length = st.gatheredData.length + 1 := by
  rw [handleFunctionCall] at h
  cases hfind : st.gatheredData.find? (fun sd => stepMatches sd fn args) with
  | some sd =>
    rw [hfind] at h
    simp only [Prod.mk.injEq, Except.ok.injEq] at h
    obtain ⟨hst, _⟩ := h
    rw [← hst]
    constructor <;> simp
  | none =>
    rw [hfind] at h
    rcases hex : executeFunction O k fn args with ⟨res, kk⟩
    rw [hex] at h
    cases res with
    | error e => simp at h
    | ok data =>
      simp only [Prod.mk.injEq, Except.ok.injEq] at h
      obtain ⟨hst, _⟩ := h
      rw [← hst]
      constructor <;> simp

/-- A successful forced summary copies `steps` and `gatheredData` into
the response. -/
theorem generateFinalSummary_ok {α : Type} (O : Oracles α) (req : AnalysisRequest)
    (st : AgentState) (nllm : Nat) (resp : AnalysisResponse)
    (h : generateFinalSummary O req st nllm = .ok resp) :
    resp.steps = st.steps ∧ resp.guacData = st.gatheredData := by
  rw [generateFinalSummary] at h
  cases hllm : O.llm nllm { system := [finalSummaryPrompt st], user := [""], toolsAttached := false } with
  | error e => rw [hllm] at h; simp at h
  | ok r =>
    rw [hllm] at h
    simp only [Except.ok.injEq] at h
    rw [← h]
    exact ⟨rfl, rfl⟩

/-- A successful failure explanation copies `steps` and `gatheredData`
into the response. -/
theorem generateGUACFailureExplanation_ok {α : Type} (O : Oracles α) (req : AnalysisRequest)
    (st : AgentState) (nllm : Nat) (resp : AnalysisResponse)
    (h : generateGUACFailureExplanation O req st nllm = .ok resp) :
    resp.steps = st.steps ∧ resp.guacData = st.gatheredData := by
  rw [generateGUACFailureExplanation] at h
  cases hllm : O.llm nllm { system := [guacFailurePrompt st], user := [""], toolsAttached := false } with
  | error e => rw [hllm] at h; simp at h
  | ok r =>
    rw [hllm] at h
    simp only [Except.ok.injEq] at h
    rw [← h]
    exact ⟨rfl, rfl⟩

/-- The loop invariant: from a state where `steps` counts the gathered
data and at most `fuel` more steps fit in the budget, every successful
response satisfies `steps ≤ MaxSteps` and `steps = |guacData|`. -/
theorem analyzeLoop_ok_bounds {α : Type} (O : Oracles α) (req : AnalysisRequest) :
    ∀ (fuel nllm nguac : Nat) (st : AgentState) (resp : AnalysisResponse),
      st.steps = st.gatheredData.length →
      st.steps + fuel ≤ MaxSteps →
      analyzeLoop O req fuel nllm nguac st = .ok resp →
      resp.steps ≤ MaxSteps ∧ resp.steps = resp.guacData.length := by
  intro fuel
  induction fuel with
  | zero =>
    intro nllm nguac st resp hlen hle h
    simp only [analyzeLoop] at h
    obtain ⟨h1, h2⟩ := generateFinalSummary_ok O req st nllm resp h
    refine ⟨by omega, ?_⟩
    rw [h1, h2, hlen]
  | succ fuel ih =>
    intro nllm nguac st resp hlen hle h
    simp only [analyzeLoop] at h
    by_cases hstep : st.steps < MaxSteps
    · rw [if_pos hstep] at h
      cases hact : getNextAgentAction O st nllm with
      | error e => rw [hact] at h; simp at h
      | ok pr =>
        obtain ⟨action, usage⟩ := pr
        rw [hact] at h
        dsimp only at h
        cases hfc : action.action == "function_call" with
        | true =>
          rw [hfc] at h
          simp only [if_true] at h
          rcases hhf : handleFunctionCall O nguac st action.function action.arguments with ⟨res, k2⟩
          rw [hhf] at h
          cases res with
          | ok st2 =>
            dsimp only at h
            obtain ⟨h1, h2⟩ := handleFunctionCall_ok O nguac st _ _ st2 k2 hhf
            exact ih (nllm + 1) k2 st2 resp (by omega) (by omega) h
          | error e =>
            cases e with
            | guacUnreachable m =>
              dsimp only at h
              obtain ⟨h1, h2⟩ :=
                generateGUACFailureExplanation_ok O req _ (nllm + 1) resp h
              rw [h1, h2]
              dsimp only [guacFailState]
              refine ⟨by omega, ?_⟩
              simp only [List.length_append, List.length_cons, List.length_nil]
              omega
            | other m => simp at h
        | false =>
          rw [hfc] at h
          simp only [Bool.false_eq_true, if_false] at h
          cases hfr : action.action == "final_response" with
          | true =>
            rw [hfr] at h
            simp only [if_true] at h
            simp only [Except.ok.injEq] at h
            rw [← h]
            simp only [handleFinalResponse]
            exact ⟨by omega, hlen⟩
          | false =>
            rw [hfr] at h
            simp only [Bool.false_eq_true, if_false] at h
            simp at h
    · rw [if_neg hstep] at h
      obtain ⟨h1, h2⟩ := generateFinalSummary_ok O req st nllm resp h
      refine ⟨by omega, ?_⟩
      rw [h1, h2, hlen]

/-- Claim C1: every successful `Analyze` response has
`metadata.steps ≤ MaxSteps = 5` and `metadata.steps` equal to the length
of `supportingData.guacData` — the loop pairs every append to
`GatheredData` with exactly one increment of `Steps`. -/
theorem analyze_steps_bounded_and_counted {α : Type} (O : Oracles α) (req : AnalysisRequest)
    (resp : AnalysisResponse) (h : Analyze O req = .ok resp) :
    resp.steps ≤ MaxSteps ∧ resp.steps = resp.guacData.length :=
  analyzeLoop_ok_bounds O req MaxSteps 0 0 _ resp rfl (by simp [MaxSteps]) h

/-- An LLM oracle that immediately answers `hello` with no tool call. -/
def stubFinalO : Oracles Unit :=
  { llm := fun _ _ => .ok { content := "hello", functionCall := none, totalTokens := 3 },
    net := fun _ _ _ => .error "unused", marshal := fun _ => some "" }

def stubReq : AnalysisRequest := { query := "hi", model := "" }

/-- Witness for `analyze_steps_bounded_and_counted`: the concrete
first-step final response. -/
theorem analyze_steps_bounded_and_counted_witness :
    Analyze stubFinalO stubReq =
      .ok { result := "hello", queries := [], guacData := [], model := "", tokensUsed := 3, steps := 0 } ∧
    ((0 : Nat) ≤ MaxSteps ∧
      (AnalysisResponse.steps { result := "hello", queries := [], guacData := [], model := "", tokensUsed := 3, steps := 0 }) =
      (AnalysisResponse.guacData { result := "hello", queries := [], guacData := [], model := "", tokensUsed := 3, steps := 0 }).length) :=
  ⟨rfl, analyze_steps_bounded_and_counted stubFinalO stubReq _ rfl⟩

/-! ### Deduplication (C2) and marshal failure (C9) -/

/-- Claim C2: when `(name, arguments)` matches an earlier step — `i` the
least matching index — the backend counter is untouched (no re-invoke),
a `StepData` reusing that step's `data` verbatim is appended with the
exact reuse findings, `steps` is incremented, and the call returns
successfully to the deciding loop. -/
theorem handleFunctionCall_dedup {α : Type} (O : Oracles α) (nguac : Nat) (st : AgentState)
    (fn args : String) (i : Nat) (hi : i < st.gatheredData.length)
    (hmatch : stepMatches (st.gatheredData.get ⟨i, hi⟩) fn args = true)
    (hmin : ∀ (j : Nat) (hj : j < st.gatheredData.length), j < i →
      stepMatches (st.gatheredData.get ⟨j, hj⟩) fn args = false) :
    handleFunctionCall O nguac st fn args =
      (.ok { st with
          gatheredData := st.gatheredData ++
            [{ stepNumber := st.steps + 1, functionName := fn, arguments := args,
               data := (st.gatheredData.get ⟨i, hi⟩).data,
               findings := dedupFindings (st.steps + 1) fn (st.gatheredData.get ⟨i, hi⟩).stepNumber }],
          steps := st.steps + 1 }, nguac) := by
  have hfind : st.gatheredData.find? (fun sd => stepMatches sd fn args) =
      some (st.gatheredData.get ⟨i, hi⟩) :=
    find?_of_first _ st.gatheredData i hi hmatch hmin
  rw [handleFunctionCall, hfind]

def c2sd : StepData :=
  { stepNumber := 1, functionName := "Packages", arguments := "\x7b\"name\":\"foo\"\x7d",
    data := "DATA", findings := "F" }

def c2st : AgentState :=
  { steps := 1, gatheredData := [c2sd], currentQuery := "q", originalQuery := "q" }

def c2args : String := " \x7b \"name\" : \"foo\" \x7d "

def closedO : Oracles Unit :=
  { llm := fun _ _ => .error "closed", net := fun _ _ _ => .error "closed", marshal := fun _ => none }

/-- Witness for `handleFunctionCall_dedup`: a repeat of `Packages` with
byte-different but JSON-equal arguments reuses step 1's data. -/
theorem handleFunctionCall_dedup_witness :
    stepMatches c2sd "Packages" c2args = true ∧
    handleFunctionCall closedO 7 c2st "Packages" c2args =
      (.ok { c2st with
          gatheredData := c2st.gatheredData ++
            [{ stepNumber := 2, functionName := "Packages", arguments := c2args,
               data := "DATA", findings := dedupFindings 2 "Packages" 1 }],
          steps := 2 }, 7) := by
  refine ⟨rfl, ?_⟩
  rw [handleFunctionCall_dedup closedO 7 c2st "Packages" c2args 0 (by decide) rfl
    (fun j hj hj0 => absurd hj0 (Nat.not_lt_zero j))]
  rfl

/-- Claim C9: a successful tool invocation whose result fails to marshal
yields the literal `error: failed to parse tool output` with no error,
and the loop records the step and continues. -/
theorem executeFunction_marshal_failure {α : Type} (O : Oracles α) (k : Nat) (st : AgentState)
    (fn args : String) (v : α)
    (hnodup : st.gatheredData.find? (fun sd => stepMatches sd fn args) = none)
    (hcall : CallGUACOperation O k fn args = .ok v)
    (hmarshal : O.marshal v = none) :
    executeFunction O k fn args = (.ok "error: failed to parse tool output", k + 1) ∧
    handleFunctionCall O k st fn args =
      (.ok { st with
          gatheredData := st.gatheredData ++
            [{ stepNumber := st.steps + 1, functionName := fn, arguments := args,
               data := "error: failed to parse tool output",
               findings := "Step " ++ toString (st.steps + 1) ++ ": " ++ fn ++
                 " returned " ++ "error: failed to parse tool output" }],
          steps := st.steps + 1 }, k + 1) := by
  have hexec : executeFunction O k fn args = (.ok "error: failed to parse tool output", k + 1) := by
    simp [executeFunction, callGUACWithRetry, maxGUACRetries, retryLoop, hcall, hmarshal]
  refine ⟨hexec, ?_⟩
  rw [handleFunctionCall, hnodup, hexec]

/-! ### Unknown tool (C3) and backend failure (C4) -/

/-- Whether `pat` occurs as a substring of `s` (byte lists). -/
def charListInfix : List Char → List Char → Bool
  | pat, [] => pat.isEmpty
  | pat, c :: rest => charListStartsWith pat (c :: rest) || charListInfix pat rest

/-- Substring containment test. -/
def strContains (s pat : String) : Bool := charListInfix pat.toList s.toList

/-- Every error produced by a name-lookup failure of the dispatcher. -/
theorem CallGUACOperation_unknown {α : Type} (O : Oracles α) (fn args : String)
    (hunknown : allowedOperationNames.contains fn = false) (k : Nat) :
    CallGUACOperation O k fn args = .error ("operation with name \"" ++ fn ++ "\" not found") := by
  unfold CallGUACOperation findOperationByName
  rw [hunknown]
  simp

/-- Claim C3 (amended): when the LLM emits a tool name that is not in the
operation registry (and the call is not a duplicate of an earlier step),
both dispatcher attempts fail on the name lookup; a StepData whose
FunctionName is the invented name, whose Data is `Failed to reach GUAC
after multiple attempts.` and whose Findings is `GUAC unreachable after
multiple attempts.` is appended; steps is incremented; and the analysis
TERMINATES through the GUAC-failure explanation path instead of
continuing to the next deciding iteration.  The invented name is
recorded in the step's FunctionName field, not in its Findings string. -/
theorem unknown_tool_terminates {α : Type} (O : Oracles α) (req : AnalysisRequest)
    (fuel nllm nguac : Nat) (st : AgentState) (resp : LLMResp) (fn args : String)
    (hstep : st.steps < MaxSteps)
    (hllm : O.llm nllm (decidingInput st) = .ok resp)
    (hfc : resp.functionCall = some (fn, args))
    (hunknown : allowedOperationNames.contains fn = false)
    (hnodup : st.gatheredData.find? (fun sd => stepMatches sd fn args) = none) :
    handleFunctionCall O nguac st fn args =
      (.error (.guacUnreachable ("function execution failed: " ++
        ("guac unreachable after retry: " ++ ("operation with name \"" ++ fn ++ "\" not found")))),
       nguac + 2) ∧
    analyzeLoop O req (fuel + 1) nllm nguac st =
      generateGUACFailureExplanation O req (guacFailState st fn args) (nllm + 1) ∧
    (guacFailState st fn args).steps = st.steps + 1 ∧
    (guacFailState st fn args).gatheredData =
      st.gatheredData ++
        [{ stepNumber := st.steps + 1, functionName := fn, arguments := args,
           data := guacFailData, findings := guacFailFindings }] := by
  have hhf : handleFunctionCall O nguac st fn args =
      (.error (.guacUnreachable ("function execution failed: " ++
        ("guac unreachable after retry: " ++ ("operation with name \"" ++ fn ++ "\" not found")))),
       nguac + 2) := by
    simp [handleFunctionCall, hnodup, executeFunction, callGUACWithRetry, maxGUACRetries,
      retryLoop, CallGUACOperation_unknown O fn args hunknown, wrapAgentErr]
  have hact : getNextAgentAction O st nllm =
      .ok ({ action := "function_call", function := fn, arguments := args, message := "" },
        resp.totalTokens) := by
    simp [getNextAgentAction, hllm, hfc]
  refine ⟨hhf, ?_, rfl, rfl⟩
  simp only [analyzeLoop, if_pos hstep]
  rw [hact]
  dsimp only
  rw [hhf]
  simp

def c3llm : Nat → LLMInput → Except String LLMResp := fun n inp =>
  if n == 0 then .ok { content := "", functionCall := some ("nonexistent", "\x7b\x7d"), totalTokens := 1 }
  else if inp.toolsAttached then .ok { content := "CONTINUED", functionCall := none, totalTokens := 1 }
  else .ok { content := "APOLOGY", functionCall := none, totalTokens := 1 }

/-- An oracle whose LLM first calls the unregistered tool `nonexistent`,
then answers `CONTINUED` whenever asked WITH tools and `APOLOGY`
whenever asked without. -/
def c3O : Oracles Unit :=
  { llm := c3llm, net := fun _ _ _ => .error "no backend", marshal := fun _ => some "" }

def c3req : AnalysisRequest := { query := "q", model := "" }

def c3st0 : AgentState :=
  { steps := 0, gatheredData := [], currentQuery := "q", originalQuery := "q" }

/-- Claim C3 counterexample: the LLM emits tool name `nonexistent`; the
recorded step's findings is exactly `GUAC unreachable after multiple
attempts.` — a string NOT containing `nonexistent` — and the analysis
ends with the no-tools apology (`APOLOGY`), not with the next deciding
iteration's answer (`CONTINUED`): the loop terminates instead of
continuing. -/
theorem unknown_tool_counterexample :
    (Analyze c3O c3req).map
        (fun r => (r.result, r.steps, r.guacData.map (fun sd => (sd.functionName, sd.findings)))) =
      .ok ("APOLOGY", 1, [("nonexistent", "GUAC unreachable after multiple attempts.")]) ∧
    strContains "GUAC unreachable after multiple attempts." "nonexistent" = false :=
  ⟨rfl, rfl⟩

/-- Witness for `unknown_tool_terminates` at the concrete `nonexistent`
run. -/
theorem unknown_tool_terminates_witness :
    (c3st0.steps < MaxSteps ∧ allowedOperationNames.contains "nonexistent" = false) ∧
    handleFunctionCall c3O 0 c3st0 "nonexistent" "\x7b\x7d" =
      (.error (.guacUnreachable ("function execution failed: " ++
        ("guac unreachable after retry: " ++
          ("operation with name \"" ++ "nonexistent" ++ "\" not found")))), 2) ∧
    analyzeLoop c3O c3req 5 0 0 c3st0 =
      generateGUACFailureExplanation c3O c3req (guacFailState c3st0 "nonexistent" "\x7b\x7d") 1 := by
  have h := unknown_tool_terminates c3O c3req 4 0 0 c3st0
    { content := "", functionCall := some ("nonexistent", "\x7b\x7d"), totalTokens := 1 }
    "nonexistent" "\x7b\x7d" (by decide) rfl rfl rfl rfl
  exact ⟨⟨by decide, rfl⟩, h.1, h.2.1⟩

/-- The dispatcher-attempt counter grows by at most the remaining
attempt budget. -/
theorem retryLoop_counter_le {α : Type} (O : Oracles α) (fn args : String) :
    ∀ (r k : Nat) (e : String), (retryLoop O fn args k r e).2 ≤ k + r
  | 0, k, e => by simp [retryLoop]
  | r + 1, k, e => by
    rw [retryLoop]
    cases hc : CallGUACOperation O k fn args with
    | ok v => dsimp only; omega
    | error e2 =>
      have h := retryLoop_counter_le O fn args r (k + 1) e2
      dsimp only
      omega

/-- One `handleFunctionCall` performs at most `maxGUACRetries`
dispatcher attempts. -/
theorem handleFunctionCall_counter_le {α : Type} (O : Oracles α) (st : AgentState)
    (fn args : String) (k : Nat) :
    (handleFunctionCall O k st fn args).2 ≤ k + maxGUACRetries := by
  rw [handleFunctionCall]
  cases hfind : st.gatheredData.find? (fun sd => stepMatches sd fn args) with
  | some sd => simp
  | none =>
    rcases hex : executeFunction O k fn args with ⟨res, kk⟩
    have hkk : kk ≤ k + maxGUACRetries := by
      rw [executeFunction] at hex
      rcases hc : callGUACWithRetry O fn args k maxGUACRetries with ⟨cres, ck⟩
      rw [hc] at hex
      have hck : ck ≤ k + maxGUACRetries := by
        have h := retryLoop_counter_le O fn args maxGUACRetries k ""
        rw [callGUACWithRetry] at hc
        rw [hc] at h
        exact h
      cases cres with
      | error e => simp at hex; omega
      | ok v =>
        dsimp only at hex
        cases hm : O.marshal v with
        | none => rw [hm] at hex; simp at hex; omega
        | some o => rw [hm] at hex; simp at hex; omega
    cases res with
    | error e => simp; omega
    | ok data => simp; omega

/-- Claim C4: `maxGUACRetries = 2`; on a non-duplicate call whose two
dispatcher attempts both fail, a StepData with Data exactly `Failed to
reach GUAC after multiple attempts.` and Findings exactly `GUAC
unreachable after multiple attempts.` is appended, steps is incremented,
and the loop transitions to the GUAC-failure explanation path — the
response is whatever that path yields, so the backend errors `e1`, `e2`
never reach the HTTP client; in every run the dispatcher is attempted at
most twice per call. -/
theorem backend_failure_path {α : Type} (O : Oracles α) (req : AnalysisRequest)
    (fuel nllm nguac : Nat) (st : AgentState) (resp : LLMResp) (fn args e1 e2 : String)
    (hstep : st.steps < MaxSteps)
    (hllm : O.llm nllm (decidingInput st) = .ok resp)
    (hfc : resp.functionCall = some (fn, args))
    (hnodup : st.gatheredData.find? (fun sd => stepMatches sd fn args) = none)
    (h1 : CallGUACOperation O nguac fn args = .error e1)
    (h2 : CallGUACOperation O (nguac + 1) fn args = .error e2) :
    maxGUACRetries = 2 ∧
    handleFunctionCall O nguac st fn args =
      (.error (.guacUnreachable ("function execution failed: " ++
        ("guac unreachable after retry: " ++ e2))), nguac + 2) ∧
    (∀ k : Nat, (handleFunctionCall O k st fn args).2 ≤ k + maxGUACRetries) ∧
    analyzeLoop O req (fuel + 1) nllm nguac st =
      generateGUACFailureExplanation O req (guacFailState st fn args) (nllm + 1) ∧
    (guacFailState st fn args).gatheredData =
      st.gatheredData ++
        [{ stepNumber := st.steps + 1, functionName := fn, arguments := args,
           data := guacFailData, findings := guacFailFindings }] ∧
    (guacFailState st fn args).steps = st.steps + 1 := by
  have hhf : handleFunctionCall O nguac st fn args =
      (.error (.guacUnreachable ("function execution failed: " ++
        ("guac unreachable after retry: " ++ e2))), nguac + 2) := by
    simp [handleFunctionCall, hnodup, executeFunction, callGUACWithRetry, maxGUACRetries,
      retryLoop, h1, h2, wrapAgentErr]
  have hact : getNextAgentAction O st nllm =
      .ok ({ action := "function_call", function := fn, arguments := args, message := "" },
        resp.totalTokens) := by
    simp [getNextAgentAction, hllm, hfc]
  refine ⟨rfl, hhf, fun k => handleFunctionCall_counter_le O st fn args k, ?_, rfl, rfl⟩
  simp only [analyzeLoop, if_pos hstep]
  rw [hact]
  dsimp only
  rw [hhf]
  simp

def c4llm : Nat → LLMInput → Except String LLMResp := fun n _ =>
  if n == 0 then .ok { content := "", functionCall := some ("Packages", "\x7b\x7d"), totalTokens := 1 }
  else .ok { content := "SORRY", functionCall := none, totalTokens := 1 }

/-- An oracle whose backend always fails with a transport error. -/
def c4O : Oracles Unit :=
  { llm := c4llm, net := fun _ _ _ => .error "connection refused", marshal := fun _ => some "" }

def c4req : AnalysisRequest := { query := "q", model := "" }

/-- Witness for `backend_failure_path` at a concrete run where both
attempts of `Packages` fail with a transport error. -/
theorem backend_failure_path_witness :
    (c3st0.steps < MaxSteps ∧
      CallGUACOperation c4O 0 "Packages" "\x7b\x7d" = .error "connection refused") ∧
    handleFunctionCall c4O 0 c3st0 "Packages" "\x7b\x7d" =
      (.error (.guacUnreachable ("function execution failed: " ++
        ("guac unreachable after retry: " ++ "connection refused"))), 2) ∧
    analyzeLoop c4O c4req 5 0 0 c3st0 =
      generateGUACFailureExplanation c4O c4req (guacFailState c3st0 "Packages" "\x7b\x7d") 1 := by
  have h := backend_failure_path c4O c4req 4 0 0 c3st0
    { content := "", functionCall := some ("Packages", "\x7b\x7d"), totalTokens := 1 }
    "Packages" "\x7b\x7d" "connection refused" "connection refused"
    (by decide) rfl rfl rfl rfl rfl
  exact ⟨⟨by decide, rfl⟩, h.2.1, h.2.2.2.1⟩

def c9O : Oracles Unit :=
  { llm := fun _ _ => .error "closed", net := fun _ _ _ => .ok (), marshal := fun _ => none }

def c9st : AgentState := { steps := 0, gatheredData := [], currentQuery := "q", originalQuery := "q" }

/-! ### Known-Query visualizer path (C8) and unguarded indexing (C10) -/

/-- Elements produced by the dedup pass avoid the seen set and repeat
nothing. -/
theorem removeDupSeen_spec : ∀ (l seen : List String),
    (removeDupSeen seen l).Nodup ∧ ∀ x ∈ removeDupSeen seen l, ¬ x ∈ seen
  | [], seen => by simp [removeDupSeen]
  | p :: rest, seen => by
    rw [removeDupSeen]
    by_cases hp : seen.contains p
    · rw [if_pos hp]
      exact removeDupSeen_spec rest seen
    · rw [if_neg hp]
      obtain ⟨hnd, hns⟩ := removeDupSeen_spec rest (p :: seen)
      constructor
      · rw [List.nodup_cons]
        refine ⟨?_, hnd⟩
        intro hmem
        exact hns p hmem (List.mem_cons_self p seen)
      · intro x hx hxseen
        rcases List.mem_cons.mp hx with rfl | hx2
        · exact hp (by simpa using hxseen)
        · exact hns x hx2 (List.mem_cons_of_mem p hxseen)

/-- The deduplicated visualizer path has no repeated node id. -/
theorem removeDuplicateValuesFromPath_nodup (l : List String) :
    (removeDuplicateValuesFromPath l).Nodup :=
  (removeDupSeen_spec l []).1

/-- Dedup keeps the head of a path. -/
theorem removeDuplicateValuesFromPath_cons (x : String) (l : List String) :
    removeDuplicateValuesFromPath (x :: l) = x :: removeDupSeen [x] l := by
  rw [removeDuplicateValuesFromPath, removeDupSeen, if_neg (by simp)]

/-- The `hasSrcAt` collection only holds nodes of the response. -/
theorem collectNeighbors_hasSrcAt_mem : ∀ (l : List NeighborNode) (n : NeighborNode),
    n ∈ (collectNeighbors l).1.hasSrcAt → n ∈ l
  | [], n => by simp [collectNeighbors]
  | m :: rest, n => by
    intro hmem
    have ih := collectNeighbors_hasSrcAt_mem rest n
    cases m <;> simp only [collectNeighbors] at hmem <;>
      first
        | exact List.mem_cons_of_mem _ (ih hmem)
        | (rcases List.mem_cons.mp hmem with h | h
           exacts [h ▸ List.mem_cons_self _ _, List.mem_cons_of_mem _ (ih h)])

/-- Reduction of an `Except` bind on a success value. -/
theorem exceptBind_ok {ε β γ : Type} (a : β) (f : β → Except ε γ) :
    (Except.ok a : Except ε β) >>= f = f a := rfl

/-- Reduction of an `Except` bind on an error value. -/
theorem exceptBind_error {ε β γ : Type} (e : ε) (f : β → Except ε γ) :
    (Except.error e : Except ε β) >>= f = Except.error e := rfl

/-- The row rendered for a safe `hasSrcAt` node in the package branch
(used to name the rows in the totality proof below). -/
def hasSrcAtPkgRow (id : String) (src : SourceTree) (ns0 : SrcNamespaceNode) (nm0 : SrcNameNode) : KnownRow :=
  { nodeType := hasSrcAtStr, nodeId := id,
    extraInfo := "Source: " ++ src.type ++ "+" ++
      (if goStartsWith ns0.nspace "https://" then ns0.nspace else "https://" ++ ns0.nspace) ++
      "/" ++ nm0.name }

/-- The row rendered for an occurrence node outside the artifact
branch. -/
def occurrencePkgRow (id alg dig : String) : KnownRow :=
  { nodeType := occurrenceStr, nodeId := id,
    extraInfo := "Occurrence for Artifact: " ++ alg ++ ":" ++ dig }

/-- In the package branch every safe `hasSrcAt` list renders rows
without aborting. -/
theorem hasSrcAtRows_pkg_ok (O : KnownOracle) :
    ∀ l : List NeighborNode, (∀ n ∈ l, srcAtSafe n = true) →
      ∃ rows, hasSrcAtRows O packageSubjectType l = .ok rows
  | [], _ => ⟨[], rfl⟩
  | m :: rest, hsafe => by
    obtain ⟨rows, hrows⟩ :=
      hasSrcAtRows_pkg_ok O rest (fun n hn => hsafe n (List.mem_cons_of_mem _ hn))
    cases m with
    | hasSrcAt id src pkg =>
      have hs := hsafe _ (List.mem_cons_self _ _)
      simp only [srcAtSafe] at hs
      cases hns : src.namespaces with
      | nil => rw [hns] at hs; simp at hs
      | cons ns0 nss =>
        rw [hns] at hs
        dsimp only at hs
        cases hnm : ns0.names with
        | nil => rw [hnm] at hs; simp at hs
        | cons nm0 nms =>
          refine ⟨hasSrcAtPkgRow id src ns0 nm0 :: rows, ?_⟩
          simp [hasSrcAtRows, hns, hnm, goIndex, hrows, hasSrcAtPkgRow, exceptBind_ok]
    | certifyVuln id a b => exact ⟨rows, by simp only [hasSrcAtRows]; exact hrows⟩
    | certifyBad id a => exact ⟨rows, by simp only [hasSrcAtRows]; exact hrows⟩
    | certifyGood id a => exact ⟨rows, by simp only [hasSrcAtRows]; exact hrows⟩
    | scorecard id a => exact ⟨rows, by simp only [hasSrcAtRows]; exact hrows⟩
    | vexLink id a => exact ⟨rows, by simp only [hasSrcAtRows]; exact hrows⟩
    | hasSBOM id a => exact ⟨rows, by simp only [hasSrcAtRows]; exact hrows⟩
    | hasSLSA id a => exact ⟨rows, by simp only [hasSrcAtRows]; exact hrows⟩
    | hashEqual id => exact ⟨rows, by simp only [hasSrcAtRows]; exact hrows⟩
    | occurrence id a b c => exact ⟨rows, by simp only [hasSrcAtRows]; exact hrows⟩
    | pkgEqual id => exact ⟨rows, by simp only [hasSrcAtRows]; exact hrows⟩
    | certifyLegal id a b c => exact ⟨rows, by simp only [hasSrcAtRows]; exact hrows⟩
    | unknown => exact ⟨rows, by simp only [hasSrcAtRows]; exact hrows⟩

/-- In the package branch occurrence rows always render (the panicking
subject walk is only reached for artifact subjects). -/
theorem occurrenceRows_pkg_ok (O : KnownOracle) :
    ∀ l : List NeighborNode, ∃ rows, occurrenceRows O packageSubjectType l = .ok rows
  | [] => ⟨[], rfl⟩
  | m :: rest => by
    obtain ⟨rows, hrows⟩ := occurrenceRows_pkg_ok O rest
    cases m with
    | occurrence id subj alg dig =>
      refine ⟨occurrencePkgRow id alg dig :: rows, ?_⟩
      simp [occurrenceRows, hrows, occurrencePkgRow, exceptBind_ok]
      intro h
      exact absurd h (by decide)
    | certifyVuln id a b => exact ⟨rows, by simp only [occurrenceRows]; exact hrows⟩
    | certifyBad id a => exact ⟨rows, by simp only [occurrenceRows]; exact hrows⟩
    | certifyGood id a => exact ⟨rows, by simp only [occurrenceRows]; exact hrows⟩
    | scorecard id a => exact ⟨rows, by simp only [occurrenceRows]; exact hrows⟩
    | vexLink id a => exact ⟨rows, by simp only [occurrenceRows]; exact hrows⟩
    | hasSBOM id a => exact ⟨rows, by simp only [occurrenceRows]; exact hrows⟩
    | hasSLSA id a => exact ⟨rows, by simp only [occurrenceRows]; exact hrows⟩
    | hasSrcAt id a b => exact ⟨rows, by simp only [occurrenceRows]; exact hrows⟩
    | hashEqual id => exact ⟨rows, by simp only [occurrenceRows]; exact hrows⟩
    | pkgEqual id => exact ⟨rows, by simp only [occurrenceRows]; exact hrows⟩
    | certifyLegal id a b c => exact ⟨rows, by simp only [occurrenceRows]; exact hrows⟩
    | unknown => exact ⟨rows, by simp only [occurrenceRows]; exact hrows⟩

/-- Branch equations of `getOutputBasedOnNode`, one per node type used
by the package branch (the literal string comparisons of the if-chain
reduce definitionally). -/
theorem getOutput_certifyVuln (O : KnownOracle) (cn : CollectedNeighbors) (s : String) :
    getOutputBasedOnNode O cn certifyVulnStr s = .ok (certifyVulnRows cn.certifyVulns) := rfl

theorem getOutput_badLink (O : KnownOracle) (cn : CollectedNeighbors) (s : String) :
    getOutputBasedOnNode O cn badLinkStr s = .ok (badLinkRows cn.badLinks) := rfl

theorem getOutput_goodLink (O : KnownOracle) (cn : CollectedNeighbors) (s : String) :
    getOutputBasedOnNode O cn goodLinkStr s = .ok (goodLinkRows cn.goodLinks) := rfl

theorem getOutput_vexLink (O : KnownOracle) (cn : CollectedNeighbors) (s : String) :
    getOutputBasedOnNode O cn vexLinkStr s = .ok (vexLinkRows cn.vexLinks) := rfl

theorem getOutput_hasSBOM (O : KnownOracle) (cn : CollectedNeighbors) (s : String) :
    getOutputBasedOnNode O cn hasSBOMStr s =
      .ok (if cn.hasSBOMs.length > 0 then hasSBOMDirectRows cn.hasSBOMs
           else sbomFallbackRows O cn.occurrences) := rfl

theorem getOutput_hasSLSA (O : KnownOracle) (cn : CollectedNeighbors) (s : String) :
    getOutputBasedOnNode O cn hasSLSAStr s =
      .ok (if cn.hasSLSAs.length > 0 then hasSLSADirectRows cn.hasSLSAs
           else slsaFallbackRows O cn.occurrences) := rfl

theorem getOutput_hasSrcAt (O : KnownOracle) (cn : CollectedNeighbors) (s : String) :
    getOutputBasedOnNode O cn hasSrcAtStr s = hasSrcAtRows O s cn.hasSrcAt := rfl

theorem getOutput_occurrence (O : KnownOracle) (cn : CollectedNeighbors) (s : String) :
    getOutputBasedOnNode O cn occurrenceStr s = occurrenceRows O s cn.occurrences := rfl

theorem getOutput_pkgEqual (O : KnownOracle) (cn : CollectedNeighbors) (s : String) :
    getOutputBasedOnNode O cn pkgEqualStr s = .ok (pkgEqualRows cn.pkgEquals) := rfl

theorem getOutput_certifyLegal (O : KnownOracle) (cn : CollectedNeighbors) (s : String) :
    getOutputBasedOnNode O cn certifyLegalStr s = .ok (certifyLegalRows cn.certifyLegals) := rfl

/-- Claim C8 (amended): in the package branch of Known-Query the
visualizer path is the comma-join of a DUPLICATE-FREE id list that keeps
first occurrences in construction order — but the construction starts
with the package-NAME chain `name, namespace, type`, then the name-node
neighbours in discovery order, then the version node and its neighbours;
the version node id comes after the name-node block, not first. -/
theorem knownQueryPackage_visualizer_path (O : KnownOracle) (purl : String)
    (pin : PkgInputSpec) (pkg : PkgTreeNode) (ns0 : PkgNamespaceNode) (nm0 : PkgNameNode)
    (v0 : PkgVersionNode) (nsRest : List PkgNamespaceNode) (nmRest : List PkgNameNode)
    (vRest : List PkgVersionNode) (nameNs verNs : List NeighborNode)
    (hpurl : O.purlToPkg purl = .ok pin)
    (hpkgs : O.packages (buildPkgFilter pin) = .ok [pkg])
    (hns : pkg.namespaces = ns0 :: nsRest)
    (hnm : ns0.names = nm0 :: nmRest)
    (hver : nm0.versions = v0 :: vRest)
    (hnbrN : O.neighbors nm0.id [] = .ok nameNs)
    (hnbrV : O.neighbors v0.id [] = .ok verNs)
    (hsafe : ∀ n ∈ nameNs, srcAtSafe n = true) :
    ∃ secs : List KnownSection,
      knownQueryPackage O purl = .ok
        { sections := secs,
          visualizerUrl := "http://localhost:3000/?path=" ++ String.intercalate ","
            (removeDuplicateValuesFromPath
              (([nm0.id, ns0.id, pkg.id] ++ (collectNeighbors nameNs).2) ++
               ([v0.id, nm0.id, ns0.id, pkg.id] ++ (collectNeighbors verNs).2))) } ∧
      (removeDuplicateValuesFromPath
        (([nm0.id, ns0.id, pkg.id] ++ (collectNeighbors nameNs).2) ++
         ([v0.id, nm0.id, ns0.id, pkg.id] ++ (collectNeighbors verNs).2))).Nodup ∧
      (removeDuplicateValuesFromPath
        (([nm0.id, ns0.id, pkg.id] ++ (collectNeighbors nameNs).2) ++
         ([v0.id, nm0.id, ns0.id, pkg.id] ++ (collectNeighbors verNs).2))).head? = some nm0.id := by
  obtain ⟨rowsSrc, hsrc⟩ := hasSrcAtRows_pkg_ok O (collectNeighbors nameNs).1.hasSrcAt
    (fun n hn => hsafe n (collectNeighbors_hasSrcAt_mem nameNs n hn))
  obtain ⟨rowsOcc, hocc⟩ := occurrenceRows_pkg_ok O (collectNeighbors verNs).1.occurrences
  have hmain : ∃ secs : List KnownSection,
      knownQueryPackage O purl = .ok
        { sections := secs,
          visualizerUrl := "http://localhost:3000/?path=" ++ String.intercalate ","
            (removeDuplicateValuesFromPath
              (([nm0.id, ns0.id, pkg.id] ++ (collectNeighbors nameNs).2) ++
               ([v0.id, nm0.id, ns0.id, pkg.id] ++ (collectNeighbors verNs).2))) } := by
    rw [knownQueryPackage]
    simp [hpurl, hpkgs, hns, hnm, hver, hnbrN, hnbrV, queryKnownNeighbors, goIndex,
      getOutput_certifyVuln, getOutput_badLink, getOutput_goodLink, getOutput_vexLink,
      getOutput_hasSBOM, getOutput_hasSLSA, getOutput_hasSrcAt, getOutput_occurrence,
      getOutput_pkgEqual, getOutput_certifyLegal,
      hsrc, hocc, Except.mapError, exceptBind_ok, exceptBind_error]
  obtain ⟨secs, hsecs⟩ := hmain
  refine ⟨secs, hsecs, removeDuplicateValuesFromPath_nodup _, ?_⟩
  have heq : (([nm0.id, ns0.id, pkg.id] ++ (collectNeighbors nameNs).2) ++
      ([v0.id, nm0.id, ns0.id, pkg.id] ++ (collectNeighbors verNs).2)) =
      nm0.id :: (([ns0.id, pkg.id] ++ (collectNeighbors nameNs).2) ++
        ([v0.id, nm0.id, ns0.id, pkg.id] ++ (collectNeighbors verNs).2)) := by
    simp
  rw [heq, removeDuplicateValuesFromPath_cons]
  rfl

def c8pin : PkgInputSpec :=
  { type := "maven", nspace := none, name := "b", version := none, subpath := none, qualifiers := [] }

/-- A backend with one package (trie ids 1/2/3/4) and no neighbours. -/
def c8O : KnownOracle :=
  { purlToPkg := fun _ => .ok c8pin,
    pkgToPurl := fun _ _ _ _ _ _ => "purl",
    packages := fun _ => .ok
      [{ id := "1", namespaces := [{ id := "2", names := [{ id := "3", versions := [{ id := "4" }] }] }] }],
    neighbors := fun id _ => if id == "3" then .ok [] else if id == "4" then .ok [] else .error "x",
    artifacts := fun _ => .error "x" }

/-- Claim C8 counterexample: for the concrete single-package response the
produced path is `3,2,1,4` — name id, namespace id, type id, THEN the
version id — while the claim's ordering (the queried version chain
`version, name, namespace, type` first) predicts `4,3,2,1`.  The claim's
predicted URL differs from the produced one. -/
theorem knownQueryPackage_path_counterexample :
    knownQueryPackage c8O "pkg:maven/b" = .ok
      { sections :=
          [{ title := "Package Name Nodes", rows := [], edges := [] },
           { title := "Package Version Nodes", rows := [], edges := [] }],
        visualizerUrl := "http://localhost:3000/?path=3,2,1,4" } ∧
    "http://localhost:3000/?path=" ++ String.intercalate ","
        (removeDuplicateValuesFromPath (["4", "3", "2", "1"] ++ ([] : List String))) =
      "http://localhost:3000/?path=4,3,2,1" ∧
    ("http://localhost:3000/?path=3,2,1,4" : String) ≠ "http://localhost:3000/?path=4,3,2,1" :=
  ⟨rfl, rfl, by decide⟩

/-- Witness for `knownQueryPackage_visualizer_path` at the concrete
backend `c8O`. -/
theorem knownQueryPackage_visualizer_path_witness :
    c8O.purlToPkg "pkg:maven/b" = .ok c8pin ∧
    (∃ secs : List KnownSection,
      knownQueryPackage c8O "pkg:maven/b" = .ok
        { sections := secs,
          visualizerUrl := "http://localhost:3000/?path=" ++ String.intercalate ","
            (removeDuplicateValuesFromPath
              ((["3", "2", "1"] ++ ([] : List String)) ++
               (["4", "3", "2", "1"] ++ ([] : List String)))) } ∧
      (removeDuplicateValuesFromPath
        ((["3", "2", "1"] ++ ([] : List String)) ++
         (["4", "3", "2", "1"] ++ ([] : List String)))).Nodup ∧
      (removeDuplicateValuesFromPath
        ((["3", "2", "1"] ++ ([] : List String)) ++
         (["4", "3", "2", "1"] ++ ([] : List String)))).head? = some "3") := by
  refine ⟨rfl, ?_⟩
  have h := knownQueryPackage_visualizer_path c8O "pkg:maven/b" c8pin
    { id := "1", namespaces := [{ id := "2", names := [{ id := "3", versions := [{ id := "4" }] }] }] }
    { id := "2", names := [{ id := "3", versions := [{ id := "4" }] }] }
    { id := "3", versions := [{ id := "4" }] }
    { id := "4" } [] [] [] [] []
    rfl rfl rfl rfl rfl rfl rfl (by intro n hn; cases hn)
  simpa [collectNeighbors] using h

/-- A backend returning exactly one package with an empty namespace
list. -/
def c10O : KnownOracle :=
  { purlToPkg := fun _ => .ok c8pin,
    pkgToPurl := fun _ _ _ _ _ _ => "purl",
    packages := fun _ => .ok [{ id := "1", namespaces := [] }],
    neighbors := fun _ _ => .error "x",
    artifacts := fun _ => .error "x" }

/-- A backend returning exactly one package whose single name node has
an empty version list. -/
def c10Ob : KnownOracle :=
  { purlToPkg := fun _ => .ok c8pin,
    pkgToPurl := fun _ _ _ _ _ _ => "purl",
    packages := fun _ => .ok
      [{ id := "1", namespaces := [{ id := "2", names := [{ id := "3", versions := [] }] }] }],
    neighbors := fun id _ => if id == "3" then .ok [.hashEqual "9"] else .error "x",
    artifacts := fun _ => .error "x" }

/-- Claim C10: the only guarded shape check in `knownQueryPackage` is
`len(Packages) != 1` (any other count yields the `failed to locate
package based on purl` error); with exactly one package whose
`Namespaces` — or, deeper, whose `Versions` — list is empty, evaluation
aborts with an out-of-range index access instead of returning a
BackendDataShape error. -/
theorem knownQueryPackage_unguarded_indexing :
    (∀ (O : KnownOracle) (purl : String) (pin : PkgInputSpec) (pkgs : List PkgTreeNode),
        O.purlToPkg purl = .ok pin →
        O.packages (buildPkgFilter pin) = .ok pkgs →
        pkgs.length ≠ 1 →
        knownQueryPackage O purl = .error (.returned "failed to locate package based on purl")) ∧
    knownQueryPackage c10O "pkg:maven/b" = .error .outOfRange ∧
    knownQueryPackage c10Ob "pkg:maven/b" = .error .outOfRange := by
  refine ⟨?_, rfl, rfl⟩
  intro O purl pin pkgs h1 h2 h3
  rw [knownQueryPackage]
  simp [h1, h2, h3, exceptBind_ok, exceptBind_error, bne_iff_ne]

/-- A backend returning no package at all for the filter. -/
def c10Oc : KnownOracle :=
  { purlToPkg := fun _ => .ok c8pin,
    pkgToPurl := fun _ _ _ _ _ _ => "purl",
    packages := fun _ => .ok [],
    neighbors := fun _ _ => .error "x",
    artifacts := fun _ => .error "x" }

/-- Witness for `knownQueryPackage_unguarded_indexing`: the guarded
zero-match case produces the BackendDataShape error. -/
theorem knownQueryPackage_unguarded_indexing_witness :
    c10Oc.packages (buildPkgFilter c8pin) = .ok [] ∧
    knownQueryPackage c10Oc "pkg:maven/b" = .error (.returned "failed to locate package based on purl") :=
  ⟨rfl, knownQueryPackage_unguarded_indexing.1 c10Oc "pkg:maven/b" c8pin [] rfl rfl (by decide)⟩

/-- Witness for `executeFunction_marshal_failure`: a backend value whose
marshalling fails produces the literal step data. -/
theorem executeFunction_marshal_failure_witness :
    c9st.gatheredData.find? (fun sd => stepMatches sd "Packages" "\x7b\x7d") = none ∧
    CallGUACOperation c9O 0 "Packages" "\x7b\x7d" = .ok () ∧
    c9O.marshal () = none ∧
    executeFunction c9O 0 "Packages" "\x7b\x7d" = (.ok "error: failed to parse tool output", 1) :=
  ⟨rfl, rfl, rfl,
    (executeFunction_marshal_failure c9O 0 c9st "Packages" "\x7b\x7d" () rfl rfl rfl).1⟩

end GuacAiMole
